import Mathlib

/-!
Verification development for the PLU parser (src/index.js).

The JavaScript source is shallowly embedded: strings are modelled as
`List Char`, JS numbers as exact rationals `ℚ` (the claims under study are
about sign, magnitude and division by 100, not float rounding), `null` /
`undefined` as `Option.none`, and code that can throw as `Except`.
Regular-expression based extraction routines are transcribed as explicit
scanners over character lists that follow the leftmost-match, ordered
alternative, greedy-with-backtrack semantics of the concrete patterns of
the source.
-/

abbrev Str := List Char

/-- Two characters with the same code point are equal. -/
theorem charToNat_inj {a b : Char} (h : a.toNat = b.toNat) : a = b :=
  Char.ext (UInt32.ext h)

/-- JS whitespace class `\s`: ASCII whitespace (tab 9, LF 10, VT 11, FF 12,
CR 13, space 32), NBSP, and the Unicode space separators plus BOM, as used
by `trim`, `\s` and `/\s+/g`. -/
def isJsWs (c : Char) : Bool :=
  c.toNat == 9 || c.toNat == 10 || c.toNat == 11 || c.toNat == 12 ||
  c.toNat == 13 || c.toNat == 32 ||
  c.toNat == 160 || c.toNat == 0x1680 ||
  (0x2000 ≤ c.toNat && c.toNat ≤ 0x200A) ||
  c.toNat == 0x2028 || c.toNat == 0x2029 || c.toNat == 0x202F ||
  c.toNat == 0x205F || c.toNat == 0x3000 || c.toNat == 0xFEFF

/-- JS regex digit class `\d` (the ASCII digits, code points 48-57). -/
def isDigitC (c : Char) : Bool := 48 ≤ c.toNat && c.toNat ≤ 57

/-- JS regex word class `\w` = `[A-Za-z0-9_]` (used for `\b` boundaries). -/
def isWordChar (c : Char) : Bool :=
  (65 ≤ c.toNat && c.toNat ≤ 90) || (97 ≤ c.toNat && c.toNat ≤ 122) ||
  isDigitC c || c.toNat == 95

theorem isDigitC_toNat {d : Char} (h : isDigitC d = true) :
    48 ≤ d.toNat ∧ d.toNat ≤ 57 := by
  simpa [isDigitC] using h

theorem not_ws_of_digit {d : Char} (h : isDigitC d = true) :
    isJsWs d = false := by
  obtain ⟨h1, h2⟩ := isDigitC_toNat h
  simp only [isJsWs, Bool.or_eq_false_iff, beq_eq_false_iff_ne, ne_eq,
    Bool.and_eq_false_iff, decide_eq_false_iff_not, not_le, not_and_or]
  omega

/-- Model of JS `String.prototype.toLowerCase` restricted to ASCII and the
Latin-1 uppercase letters (the only letters occurring in the source's
patterns and in the inputs analysed here). -/
def jsToLowerChar (c : Char) : Char :=
  if 'A' ≤ c ∧ c ≤ 'Z' then Char.ofNat (c.toNat + 32)
  else if 0xC0 ≤ c.toNat ∧ c.toNat ≤ 0xDE ∧ c.toNat ≠ 0xD7 then Char.ofNat (c.toNat + 32)
  else c

/-- Model of JS `String.prototype.toUpperCase` (same restriction). -/
def jsToUpperChar (c : Char) : Char :=
  if 'a' ≤ c ∧ c ≤ 'z' then Char.ofNat (c.toNat - 32)
  else if 0xE0 ≤ c.toNat ∧ c.toNat ≤ 0xFE ∧ c.toNat ≠ 0xF7 then Char.ofNat (c.toNat - 32)
  else c

def jsToLower (s : Str) : Str := s.map jsToLowerChar

def jsToUpper (s : Str) : Str := s.map jsToUpperChar

/-- JS `String.prototype.trim`. -/
def jsTrim (s : Str) : Str :=
  ((s.dropWhile isJsWs).reverse.dropWhile isJsWs).reverse

/-- JS `String.prototype.replace` with a *string* pattern: replaces only the
first occurrence of `needle`. -/
def replaceFirstStr (needle repl : Str) : Str → Str
  | [] => if needle.isPrefixOf ([] : Str) then repl else []
  | c :: rest =>
    if needle.isPrefixOf (c :: rest) then repl ++ (c :: rest).drop needle.length
    else c :: replaceFirstStr needle repl rest

/-- JS `String.prototype.slice(a, b)` for the already-clamped nonnegative
index pairs the source produces via `Math.max`/`Math.min`. -/
def jsSlice (s : Str) (a b : Nat) : Str := (s.take b).drop a

/-- JS truthiness of a possibly-null string (`null`, `undefined` and `""`
are falsy). -/
def strTruthy : Option Str → Bool
  | some (_ :: _) => true
  | _ => false

/-- JS `String.prototype.includes`. -/
def strIncludes (needle : Str) : Str → Bool
  | [] => needle.isEmpty
  | c :: rest => needle.isPrefixOf (c :: rest) || strIncludes needle rest

def digitVal (c : Char) : Nat := c.toNat - '0'.toNat

def digitsToNat (ds : Str) : Nat := ds.foldl (fun a c => 10 * a + digitVal c) 0

/-- Value of a fractional digit block `ds` read after a decimal point. -/
def fracValQ (ds : Str) : ℚ := (digitsToNat ds : ℚ) / ((10 : ℚ) ^ ds.length)

/-- Exponent part of a JS float literal after the `e`/`E`; a malformed
exponent is ignored (as `parseFloat` does). -/
def parseExpPart (s : Str) : ℤ :=
  let sgn : ℤ := if s.head? = some '-' then -1 else 1
  let s1 := if s.head? = some '+' ∨ s.head? = some '-' then s.tail else s
  let digs := s1.takeWhile isDigitC
  if digs = [] then 0 else sgn * (digitsToNat digs : ℤ)

/-- Model of JS `parseFloat` (on the finite-decimal grammar; the special
`Infinity` form never arises from the source's regex captures), with the
result read as an exact rational. -/
def jsParseFloat (s : Str) : Option ℚ :=
  let s1 := s.dropWhile isJsWs
  let sgn : ℚ := if s1.head? = some '-' then -1 else 1
  let s2 := if s1.head? = some '+' ∨ s1.head? = some '-' then s1.tail else s1
  let intDigs := s2.takeWhile isDigitC
  let s3 := s2.dropWhile isDigitC
  let fracDigs := if s3.head? = some '.' then s3.tail.takeWhile isDigitC else []
  let s4 := if s3.head? = some '.' then s3.tail.dropWhile isDigitC else s3
  if intDigs = [] ∧ fracDigs = [] then none
  else
    let mantissa : ℚ := (digitsToNat intDigs : ℚ) + fracValQ fracDigs
    let expo : ℤ :=
      if s4.head? = some 'e' ∨ s4.head? = some 'E' then parseExpPart s4.tail
      else 0
    some (sgn * mantissa * (10 : ℚ) ^ expo)

/-- `parseFrenchDecimal` from src/index.js: guard falsy input, replace the
first `,` by `.`, strip all whitespace, `parseFloat`. -/
def parseFrenchDecimal (s : Option Str) : Option ℚ :=
  match s with
  | none => none
  | some str =>
    if str = [] then none
    else jsParseFloat ((replaceFirstStr [','] ['.'] str).filter (fun c => !isJsWs c))

/-- One pass of `/\s+/g → " "`: each maximal whitespace run becomes a single
space.  The boolean records whether the previous character was inside a run. -/
def collapseWsAux : Bool → Str → Str
  | _, [] => []
  | inRun, c :: rest =>
    if isJsWs c then
      if inRun then collapseWsAux true rest else ' ' :: collapseWsAux true rest
    else c :: collapseWsAux false rest

def collapseWs (s : Str) : Str := collapseWsAux false s

/-- `cleanNote` from src/index.js with explicit maximum length. -/
def cleanNoteWith (maxLen : Nat) (t : Option Str) : Option Str :=
  match t with
  | none => none
  | some s =>
    if s = [] then none
    else
      let cleaned := collapseWs (jsTrim s)
      if cleaned.length ≤ maxLen then some cleaned
      else some (cleaned.take (maxLen - 3) ++ ['.', '.', '.'])

/-- `cleanNote` at its default maximum length 200. -/
def cleanNote (t : Option Str) : Option Str := cleanNoteWith 200 t

example : cleanNote (some "  a   b ".toList) = some "a b".toList := by
  decide

example : strIncludes "LLM_FAILED".toList "x LLM_FAILED y".toList = true := by
  decide

/-! ### normalizeText (src/index.js lines 36-42) -/

/-- Pass 1 of `normalizeText`: `.replace(/\r\n/g, "\n")` (leftmost,
non-overlapping). -/
def replCRLF : Str → Str
  | [] => []
  | [c] => [c]
  | c :: d :: rest =>
    if c = '\r' ∧ d = '\n' then '\n' :: replCRLF rest
    else c :: replCRLF (d :: rest)

/-- Pass 2: `.replace(/\r/g, "\n")`. -/
def replCR (s : Str) : Str := s.map (fun c => if c = '\r' then '\n' else c)

def isSpTab (c : Char) : Bool := c == ' ' || c == '\t'

/-- Pass 3: `.replace(/[ \t]+/g, " ")`; every maximal run of spaces/tabs
becomes one space (the boolean tracks being inside a run). -/
def collapseSpTabAux : Bool → Str → Str
  | _, [] => []
  | inRun, c :: rest =>
    if isSpTab c then
      if inRun then collapseSpTabAux true rest
      else ' ' :: collapseSpTabAux true rest
    else c :: collapseSpTabAux false rest

/-- Pass 4 helper: flush a pending run of `n` newlines, as
`.replace(/\n{3,}/g, "\n\n")` would leave it. -/
def emitNl (n : Nat) (tail : Str) : Str :=
  (if 3 ≤ n then ['\n', '\n'] else List.replicate n '\n') ++ tail

/-- Pass 4: `.replace(/\n{3,}/g, "\n\n")`; `n` counts the pending newline
run. -/
def collapseNlAux : Nat → Str → Str
  | n, [] => emitNl n []
  | n, c :: rest =>
    if c = '\n' then collapseNlAux (n + 1) rest
    else emitNl n (c :: collapseNlAux 0 rest)

/-- `normalizeText` from src/index.js: the four `.replace` passes in source
order. -/
def normalizeText (s : Str) : Str :=
  collapseNlAux 0 (collapseSpTabAux false (replCR (replCRLF s)))

/-- No two adjacent spaces. -/
def noDbl : Str → Bool
  | a :: b :: l => !(a == ' ' && b == ' ') && noDbl (b :: l)
  | _ => true

/-- No three adjacent newlines. -/
def noTriple : Str → Bool
  | a :: b :: c :: l =>
    !(a == '\n' && b == '\n' && c == '\n') && noTriple (b :: c :: l)
  | _ => true

theorem noDbl_tail {a : Char} {l : Str} (h : noDbl (a :: l) = true) :
    noDbl l = true := by
  cases l with
  | nil => rfl
  | cons b t => simp [noDbl] at h; exact h.2

theorem noDbl_cons_of_ne {a : Char} (l : Str) (h : a ≠ ' ') :
    noDbl (a :: l) = noDbl l := by
  cases l with
  | nil => simp [noDbl]
  | cons b t => simp [noDbl, h]

theorem noDbl_cons_of_head_ne {a b : Char} (l : Str) (h : b ≠ ' ') :
    noDbl (a :: b :: l) = noDbl (b :: l) := by
  simp [noDbl, h]

theorem noTriple_tail {a : Char} {l : Str} (h : noTriple (a :: l) = true) :
    noTriple l = true := by
  cases l with
  | nil => rfl
  | cons b t =>
    cases t with
    | nil => rfl
    | cons c u => simp [noTriple] at h; exact h.2

theorem noTriple_cons_of_ne {a : Char} (l : Str) (h : a ≠ '\n') :
    noTriple (a :: l) = noTriple l := by
  cases l with
  | nil => simp [noTriple]
  | cons b t =>
    cases t with
    | nil => simp [noTriple]
    | cons c u => simp [noTriple, h]

theorem noTriple_cons_cons_of_ne {a b : Char} (l : Str) (h : b ≠ '\n') :
    noTriple (a :: b :: l) = noTriple (b :: l) := by
  cases l with
  | nil => simp [noTriple]
  | cons c u => simp [noTriple, h]

/-- Characters of `replCR` output are never carriage returns. -/
theorem not_cr_mem_replCR (s : Str) : '\r' ∉ replCR s := by
  intro h
  rcases List.mem_map.mp h with ⟨c, _, hc⟩
  by_cases hcr : c = '\r' <;> simp [hcr] at hc

/-- Membership in `collapseSpTabAux` output: a space, or a non-space-tab
input character. -/
theorem mem_collapseSpTabAux {a : Char} :
    ∀ (b : Bool) (s : Str), a ∈ collapseSpTabAux b s →
      a = ' ' ∨ (a ∈ s ∧ isSpTab a = false)
  | _, [], h => by simp [collapseSpTabAux] at h
  | b, c :: rest, h => by
    by_cases hc : isSpTab c = true
    · cases b with
      | true =>
        simp only [collapseSpTabAux, hc, if_pos] at h
        rcases mem_collapseSpTabAux true rest h with h1 | ⟨h1, h2⟩
        · exact Or.inl h1
        · exact Or.inr ⟨List.mem_cons_of_mem _ h1, h2⟩
      | false =>
        simp only [collapseSpTabAux, hc, if_pos] at h
        rcases List.mem_cons.mp h with h1 | h1
        · exact Or.inl h1
        · rcases mem_collapseSpTabAux true rest h1 with h2 | ⟨h2, h3⟩
          · exact Or.inl h2
          · exact Or.inr ⟨List.mem_cons_of_mem _ h2, h3⟩
    · simp only [collapseSpTabAux, hc, if_neg, Bool.false_eq_true,
        not_false_iff] at h
      rcases List.mem_cons.mp h with h1 | h1
      · subst h1
        exact Or.inr ⟨List.mem_cons_self _ _, by simpa using hc⟩
      · rcases mem_collapseSpTabAux false rest h1 with h2 | ⟨h2, h3⟩
        · exact Or.inl h2
        · exact Or.inr ⟨List.mem_cons_of_mem _ h2, h3⟩

/-- Head of `collapseSpTabAux true` output is never a space or tab. -/
theorem collapseSpTabAux_true_head (s : Str) :
    ∀ {c : Char} {l : Str}, collapseSpTabAux true s = c :: l →
      isSpTab c = false := by
  induction s with
  | nil => intro c l h; simp [collapseSpTabAux] at h
  | cons d rest ih =>
    intro c l h
    by_cases hd : isSpTab d = true
    · simp only [collapseSpTabAux, hd, if_pos] at h
      exact ih h
    · simp only [collapseSpTabAux, hd, Bool.false_eq_true, if_neg,
        not_false_iff, List.cons.injEq] at h
      rcases h with ⟨h1, _⟩
      subst h1
      simpa using hd

/-- When the head is not a space or tab, the run state does not matter. -/
theorem collapseSpTabAux_true_eq_false (s : Str)
    (h : ∀ c l, s = c :: l → isSpTab c = false) :
    collapseSpTabAux true s = collapseSpTabAux false s := by
  cases s with
  | nil => rfl
  | cons c l => simp [collapseSpTabAux, h c l rfl]

/-- `collapseSpTabAux` output has no two adjacent spaces. -/
theorem noDbl_collapseSpTabAux (s : Str) :
    ∀ b : Bool, noDbl (collapseSpTabAux b s) = true := by
  induction s with
  | nil => intro b; rfl
  | cons c rest ih =>
    intro b
    by_cases hc : isSpTab c = true
    · cases b with
      | true =>
        simp only [collapseSpTabAux, hc, if_pos]
        exact ih true
      | false =>
        simp only [collapseSpTabAux, hc, if_pos, Bool.false_eq_true, ite_false]
        cases hX : collapseSpTabAux true rest with
        | nil => rfl
        | cons d l =>
          have hd := collapseSpTabAux_true_head rest hX
          have hd2 : d ≠ ' ' := by
            intro e; subst e; simp [isSpTab] at hd
          rw [noDbl_cons_of_head_ne _ hd2, ← hX]
          exact ih true
    · simp only [collapseSpTabAux, hc, Bool.false_eq_true, if_neg,
        not_false_iff]
      have hc2 : c ≠ ' ' := by
        intro e; subst e; simp [isSpTab] at hc
      rw [noDbl_cons_of_ne _ hc2]
      exact ih false

/-- Membership in `collapseNlAux` output: a newline, or an input
character. -/
theorem mem_collapseNlAux {a : Char} :
    ∀ (n : Nat) (s : Str), a ∈ collapseNlAux n s → a = '\n' ∨ a ∈ s
  | n, [], h => by
    simp only [collapseNlAux, emitNl, List.append_nil] at h
    split at h
    · simp at h; exact Or.inl h
    · exact Or.inl (List.eq_of_mem_replicate h)
  | n, c :: rest, h => by
    by_cases hc : c = '\n'
    · simp only [collapseNlAux, hc, if_pos] at h
      rcases mem_collapseNlAux (n + 1) rest h with h1 | h1
      · exact Or.inl h1
      · exact Or.inr (List.mem_cons_of_mem _ h1)
    · simp only [collapseNlAux, hc, if_neg, not_false_iff, emitNl] at h
      rcases List.mem_append.mp h with h1 | h1
      · split at h1
        · simp at h1; exact Or.inl h1
        · exact Or.inl (List.eq_of_mem_replicate h1)
      · rcases List.mem_cons.mp h1 with h2 | h2
        · subst h2; exact Or.inr (List.mem_cons_self _ _)
        · rcases mem_collapseNlAux 0 rest h2 with h3 | h3
          · exact Or.inl h3
          · exact Or.inr (List.mem_cons_of_mem _ h3)

theorem emitNl_zero (t : Str) : emitNl 0 t = t := rfl

theorem emitNl_one (t : Str) : emitNl 1 t = '\n' :: t := rfl

theorem emitNl_two (t : Str) : emitNl 2 t = '\n' :: '\n' :: t := rfl

theorem emitNl_ge3 {n : Nat} (t : Str) (h : 3 ≤ n) :
    emitNl n t = '\n' :: '\n' :: t := by
  simp [emitNl, h]

theorem noTriple_nl_nl_cons {c : Char} (l : Str) (hc : c ≠ '\n') :
    noTriple ('\n' :: '\n' :: c :: l) = noTriple l := by
  have h1 : noTriple ('\n' :: '\n' :: c :: l) = noTriple ('\n' :: c :: l) := by
    simp [noTriple, hc]
  rw [h1, noTriple_cons_cons_of_ne _ hc, noTriple_cons_of_ne _ hc]

/-- Shape of the head of `collapseNlAux` output: empty, a newline, or (when
no newline run is pending) the first input character. -/
theorem collapseNlAux_head :
    ∀ (n : Nat) (s : Str),
      collapseNlAux n s = [] ∨ (∃ l, collapseNlAux n s = '\n' :: l) ∨
      (n = 0 ∧ ∃ c l t, s = c :: t ∧ c ≠ '\n' ∧ collapseNlAux n s = c :: l) := by
  intro n s
  induction s generalizing n with
  | nil =>
    by_cases h3 : 3 ≤ n
    · exact Or.inr (Or.inl ⟨['\n'], by simp [collapseNlAux, emitNl, h3]⟩)
    · have hn : n < 3 := Nat.lt_of_not_le h3
      interval_cases n
      · exact Or.inl (by simp [collapseNlAux, emitNl])
      · exact Or.inr (Or.inl ⟨[], by simp [collapseNlAux, emitNl, List.replicate]⟩)
      · exact Or.inr (Or.inl ⟨['\n'], by simp [collapseNlAux, emitNl, List.replicate]⟩)
  | cons c t ih =>
    by_cases hc : c = '\n'
    · subst hc
      have he : collapseNlAux n ('\n' :: t) = collapseNlAux (n + 1) t := by
        simp [collapseNlAux]
      rcases ih (n + 1) with h1 | ⟨l, hl⟩ | ⟨hz, _⟩
      · exact Or.inl (he ▸ h1)
      · exact Or.inr (Or.inl ⟨l, he ▸ hl⟩)
      · exact absurd hz (Nat.succ_ne_zero n)
    · have he : collapseNlAux n (c :: t) = emitNl n (c :: collapseNlAux 0 t) := by
        simp [collapseNlAux, hc]
      by_cases h3 : 3 ≤ n
      · refine Or.inr (Or.inl ⟨'\n' :: c :: collapseNlAux 0 t, ?_⟩)
        rw [he]; simp [emitNl, h3]
      · have hn : n < 3 := Nat.lt_of_not_le h3
        interval_cases n
        · refine Or.inr (Or.inr ⟨rfl, c, collapseNlAux 0 t, t, rfl, hc, ?_⟩)
          rw [he]; simp [emitNl]
        · refine Or.inr (Or.inl ⟨c :: collapseNlAux 0 t, ?_⟩)
          rw [he]; simp [emitNl, List.replicate]
        · refine Or.inr (Or.inl ⟨'\n' :: c :: collapseNlAux 0 t, ?_⟩)
          rw [he]; simp [emitNl, List.replicate]

/-- `collapseNlAux` preserves the no-double-space property (a nonempty
newline run is never deleted entirely, so non-newline adjacency is
unchanged). -/
theorem noDbl_collapseNlAux :
    ∀ (s : Str) (n : Nat), noDbl s = true → noDbl (collapseNlAux n s) = true := by
  intro s
  induction s with
  | nil =>
    intro n _
    by_cases h3 : 3 ≤ n
    · simp [collapseNlAux, emitNl, h3, noDbl]
    · have hn : n < 3 := Nat.lt_of_not_le h3
      interval_cases n <;> simp [collapseNlAux, emitNl, noDbl, List.replicate]
  | cons c t ih =>
    intro n h
    by_cases hc : c = '\n'
    · subst hc
      have he : collapseNlAux n ('\n' :: t) = collapseNlAux (n + 1) t := by
        simp [collapseNlAux]
      rw [he]
      exact ih (n + 1) (noDbl_tail h)
    · have he : collapseNlAux n (c :: t) = emitNl n (c :: collapseNlAux 0 t) := by
        simp [collapseNlAux, hc]
      have hcX : noDbl (c :: collapseNlAux 0 t) = true := by
        rcases collapseNlAux_head 0 t with h0 | ⟨l, hl⟩ | ⟨_, d, l, t2, ht, hd, hl⟩
        · rw [h0]
          simp [noDbl]
        · rw [hl, noDbl_cons_of_head_ne _ (by decide : '\n' ≠ ' '), ← hl]
          exact ih 0 (noDbl_tail h)
        · rw [hl]
          have hpair : ¬(c = ' ' ∧ d = ' ') := by
            intro hcd
            rcases hcd with ⟨e1, e2⟩
            subst ht e1 e2
            simp [noDbl] at h
          have h2 : noDbl (d :: l) = true := by
            rw [← hl]; exact ih 0 (noDbl_tail h)
          by_cases e1 : c = ' '
          · have hd2 : d ≠ ' ' := fun e2 => hpair ⟨e1, e2⟩
            rw [noDbl_cons_of_head_ne _ hd2]
            exact h2
          · rw [noDbl_cons_of_ne _ e1]
            exact h2
      rw [he]
      by_cases h3 : 3 ≤ n
      · rw [emitNl_ge3 _ h3, noDbl_cons_of_ne _ (by decide : '\n' ≠ ' '),
          noDbl_cons_of_ne _ (by decide : '\n' ≠ ' ')]
        exact hcX
      · have hn : n < 3 := Nat.lt_of_not_le h3
        interval_cases n
        · rw [emitNl_zero]; exact hcX
        · rw [emitNl_one, noDbl_cons_of_ne _ (by decide : '\n' ≠ ' ')]
          exact hcX
        · rw [emitNl_two, noDbl_cons_of_ne _ (by decide : '\n' ≠ ' '),
            noDbl_cons_of_ne _ (by decide : '\n' ≠ ' ')]
          exact hcX

/-- `collapseNlAux` output has no three adjacent newlines. -/
theorem noTriple_collapseNlAux :
    ∀ (s : Str) (n : Nat), noTriple (collapseNlAux n s) = true := by
  intro s
  induction s with
  | nil =>
    intro n
    by_cases h3 : 3 ≤ n
    · simp [collapseNlAux, emitNl, h3, noTriple]
    · have hn : n < 3 := Nat.lt_of_not_le h3
      interval_cases n <;> simp [collapseNlAux, emitNl, noTriple, List.replicate]
  | cons c t ih =>
    intro n
    by_cases hc : c = '\n'
    · subst hc
      have he : collapseNlAux n ('\n' :: t) = collapseNlAux (n + 1) t := by
        simp [collapseNlAux]
      rw [he]
      exact ih (n + 1)
    · have he : collapseNlAux n (c :: t) = emitNl n (c :: collapseNlAux 0 t) := by
        simp [collapseNlAux, hc]
      have hX : noTriple (c :: collapseNlAux 0 t) = true := by
        rw [noTriple_cons_of_ne _ hc]
        exact ih 0
      rw [he]
      by_cases h3 : 3 ≤ n
      · rw [emitNl_ge3 _ h3, noTriple_nl_nl_cons _ hc, ← noTriple_cons_of_ne _ hc]
        exact hX
      · have hn : n < 3 := Nat.lt_of_not_le h3
        interval_cases n
        · rw [emitNl_zero]; exact hX
        · rw [emitNl_one, noTriple_cons_cons_of_ne _ hc]
          exact hX
        · rw [emitNl_two, noTriple_nl_nl_cons _ hc, ← noTriple_cons_of_ne _ hc]
          exact hX

/-- A string without carriage returns is a fixed point of the `\r\n` pass. -/
theorem replCRLF_fix : ∀ (s : Str), '\r' ∉ s → replCRLF s = s
  | [], _ => rfl
  | [_], _ => rfl
  | c :: d :: rest, h => by
    have hc : ¬(c = '\r' ∧ d = '\n') := by
      intro hcd
      exact h (hcd.1 ▸ List.mem_cons_self _ _)
    simp only [replCRLF, if_neg hc]
    have := replCRLF_fix (d :: rest) (fun m => h (List.mem_cons_of_mem _ m))
    rw [this]

/-- A string without carriage returns is a fixed point of the `\r` pass. -/
theorem replCR_fix (s : Str) (h : '\r' ∉ s) : replCR s = s := by
  induction s with
  | nil => rfl
  | cons c rest ih =>
    have hc : c ≠ '\r' := fun e => h (e ▸ List.mem_cons_self _ _)
    simp only [replCR, List.map_cons, if_neg hc]
    have := ih (fun m => h (List.mem_cons_of_mem _ m))
    simp only [replCR] at this
    rw [this]

/-- A tab-free string without double spaces is a fixed point of the
space-collapsing pass. -/
theorem collapseSpTab_fix :
    ∀ (s : Str), '\t' ∉ s → noDbl s = true → collapseSpTabAux false s = s
  | [], _, _ => rfl
  | c :: rest, ht, hd => by
    have htr : '\t' ∉ rest := fun m => ht (List.mem_cons_of_mem _ m)
    by_cases hc : isSpTab c = true
    · have hcs : c = ' ' := by
        have hct : c ≠ '\t' := fun e => ht (e ▸ List.mem_cons_self _ _)
        rcases (by simpa [isSpTab] using hc : c = ' ' ∨ c = '\t') with h1 | h1
        · exact h1
        · exact absurd h1 hct
      simp only [collapseSpTabAux, hc, if_pos, Bool.false_eq_true, ite_false]
      have hhead : ∀ d l, rest = d :: l → isSpTab d = false := by
        intro d l hdl
        have hd1 : d ≠ ' ' := by
          intro e
          subst hdl hcs e
          simp [noDbl] at hd
        have hd2 : d ≠ '\t' := fun e => htr (hdl ▸ (e ▸ List.mem_cons_self _ _))
        simp [isSpTab, hd1, hd2]
      rw [collapseSpTabAux_true_eq_false rest hhead,
        collapseSpTab_fix rest htr (noDbl_tail hd), hcs]
    · simp only [collapseSpTabAux, hc, Bool.false_eq_true, if_neg, not_false_iff]
      rw [collapseSpTab_fix rest htr (noDbl_tail hd)]

theorem collapseNlAux_cons_nl (n : Nat) (t : Str) :
    collapseNlAux n ('\n' :: t) = collapseNlAux (n + 1) t := by
  simp [collapseNlAux]

theorem collapseNlAux_cons_other {c : Char} (n : Nat) (t : Str) (hc : c ≠ '\n') :
    collapseNlAux n (c :: t) = emitNl n (c :: collapseNlAux 0 t) := by
  simp [collapseNlAux, hc]

/-- A string with no triple newline is a fixed point of the newline
collapsing pass. -/
theorem collapseNl_fix : ∀ (s : Str), noTriple s = true → collapseNlAux 0 s = s
  | [], _ => rfl
  | [c], _ => by
    by_cases hc : c = '\n'
    · subst hc; rfl
    · rw [collapseNlAux_cons_other 0 [] hc, emitNl_zero]
      rfl
  | [c, d], _ => by
    by_cases hc : c = '\n'
    · subst hc
      rw [collapseNlAux_cons_nl]
      by_cases hd : d = '\n'
      · subst hd; rfl
      · rw [collapseNlAux_cons_other 1 [] hd, emitNl_one]
        rfl
    · rw [collapseNlAux_cons_other 0 [d] hc, emitNl_zero]
      by_cases hd : d = '\n'
      · subst hd; rfl
      · rw [collapseNlAux_cons_other 0 [] hd, emitNl_zero]
        rfl
  | c :: d :: e :: rest, h => by
    by_cases hc : c = '\n'
    · subst hc
      rw [collapseNlAux_cons_nl]
      by_cases hd : d = '\n'
      · subst hd
        rw [collapseNlAux_cons_nl]
        by_cases he2 : e = '\n'
        · subst he2; simp [noTriple] at h
        · rw [collapseNlAux_cons_other 2 rest he2, emitNl_two,
            collapseNl_fix rest (noTriple_tail (noTriple_tail (noTriple_tail h)))]
      · rw [collapseNlAux_cons_other 1 (e :: rest) hd, emitNl_one,
          collapseNl_fix (e :: rest) (noTriple_tail (noTriple_tail h))]
    · rw [collapseNlAux_cons_other 0 (d :: e :: rest) hc, emitNl_zero,
        collapseNl_fix (d :: e :: rest) (noTriple_tail h)]

/-- C9 auxiliary: the output of `normalizeText` contains no carriage
return. -/
theorem normalizeText_no_cr (s : Str) : '\r' ∉ normalizeText s := by
  intro hm
  rcases mem_collapseNlAux _ _ hm with h1 | h1
  · exact absurd h1 (by decide)
  · rcases mem_collapseSpTabAux _ _ h1 with h2 | ⟨h2, _⟩
    · exact absurd h2 (by decide)
    · exact not_cr_mem_replCR _ h2

/-- C9 auxiliary: the output of `normalizeText` contains no tab. -/
theorem normalizeText_no_tab (s : Str) : '\t' ∉ normalizeText s := by
  intro hm
  rcases mem_collapseNlAux _ _ hm with h1 | h1
  · exact absurd h1 (by decide)
  · rcases mem_collapseSpTabAux _ _ h1 with h2 | ⟨_, h3⟩
    · exact absurd h2 (by decide)
    · simp [isSpTab] at h3

/-- C9: the text normalizer `normalizeText` is a total function (it is
defined for every input string, with no error path), and it is idempotent:
applying it to already-normalized text is a no-op, i.e.
`normalizeText (normalizeText s) = normalizeText s` for every `s`. -/
theorem C9_normalizeText_idempotent (s : Str) :
    normalizeText (normalizeText s) = normalizeText s := by
  have hCR := normalizeText_no_cr s
  have hTab := normalizeText_no_tab s
  have hDbl : noDbl (normalizeText s) = true :=
    noDbl_collapseNlAux _ 0 (noDbl_collapseSpTabAux _ false)
  have hTriple : noTriple (normalizeText s) = true :=
    noTriple_collapseNlAux _ 0
  show collapseNlAux 0
      (collapseSpTabAux false (replCR (replCRLF (normalizeText s)))) =
      normalizeText s
  rw [replCRLF_fix _ hCR, replCR_fix _ hCR, collapseSpTab_fix _ hTab hDbl,
    collapseNl_fix _ hTriple]

example :
    normalizeText "a\r\nb\r\t c\n\n\n\nd".toList = "a\nb\n c\n\nd".toList := by
  decide

/-! ### Regex scanning machinery

The source's extractors are fixed regular expressions run with
`String.prototype.match`.  Each concrete pattern is transcribed as a
positional matcher `Str → Option Nat` returning the length of the match
attempt starting at that position, and a leftmost scan tries successive
start positions, as the JS engine does.  Greedy sub-expressions whose
continuation can never succeed on the characters given back (digits,
separators and whitespace are disjoint from the literals that follow in
every source pattern) are transcribed as deterministic maximal munch;
ordered alternations whose branches overlap are transcribed with explicit
continuation retry in source order. -/

/-- Leftmost match scan: index and length of the first position where the
positional matcher succeeds. -/
def findFirstLen (m : Str → Option Nat) : Str → Option (Nat × Nat)
  | [] => (m []).map (fun len => (0, len))
  | s@(_ :: rest) =>
    match m s with
    | some len => some (0, len)
    | none => (findFirstLen m rest).map (fun p => (p.1 + 1, p.2))

/-- Model of `RegExp.prototype.test`: some position matches. -/
def existsMatchB (m : Str → Bool) : Str → Bool
  | [] => m []
  | s@(_ :: rest) => m s || existsMatchB m rest

/-- Length of `\d+(?:[.,]\d+)?` at the start of `s` (greedy; the optional
fractional group is taken whenever a separator plus at least one digit
follows). -/
def numTokenLen (s : Str) : Option Nat :=
  let ds := s.takeWhile isDigitC
  if ds = [] then none
  else
    match s.drop ds.length with
    | c :: r =>
      if c = '.' ∨ c = ',' then
        let fs := r.takeWhile isDigitC
        if fs = [] then some ds.length else some (ds.length + 1 + fs.length)
      else some ds.length
    | [] => some ds.length

/-- Remainder after `\d+(?:[.,]\d+)?` at the start of `s`. -/
def numTok (s : Str) : Option Str := (numTokenLen s).map (s.drop ·)

/-- First `\d+(?:[.,]\d+)?` substring of `s` (the `numMatch` step of the
extractors). -/
def firstNumToken (s : Str) : Option Str :=
  match findFirstLen numTokenLen s with
  | some (i, len) => some ((s.drop i).take len)
  | none => none

/-- Literal string match at the current position. -/
def litP (lit : Str) (s : Str) : Option Str :=
  if lit.isPrefixOf s then some (s.drop lit.length) else none

/-- `\s*` (greedy). -/
def wsStar (s : Str) : Str := s.dropWhile isJsWs

/-- `\s+` (greedy, at least one). -/
def wsPlus : Str → Option Str
  | [] => none
  | c :: r => if isJsWs c then some ((c :: r).dropWhile isJsWs) else none

/-- A greedy optional literal character (`c?`). -/
def optCharP (c : Char) : Str → Str
  | [] => []
  | d :: r => if d = c then r else d :: r

/-- A greedy optional `[:=]` (`[:=]?`). -/
def optColonEq : Str → Str
  | [] => []
  | d :: r => if d = ':' ∨ d = '=' then r else d :: r

/-- First non-whitespace character from here on. -/
def firstNonWs (s : Str) : Option Char := (s.dropWhile isJsWs).head?

/-- Whether `\s*(?:²|2)` can match here (the surface-unit lookahead body of
the source's meter patterns). -/
def surf2Ahead (s : Str) : Bool :=
  match firstNonWs s with
  | some c => c == '²' || c == '2'
  | none => false

/-- Whether `\s*(?:²|2|\d)` can match here. -/
def surfDigitAhead (s : Str) : Bool :=
  match firstNonWs s with
  | some c => c == '²' || isDigitC c
  | none => false

/-- Ordered alternation with continuation retry: try each branch in source
order, running the continuation `k` on its remainder. -/
def tryAlts (k : Str → Option Nat) : List (Str → Option Str) → Str → Option Nat
  | [], _ => none
  | a :: rest, s =>
    match a s with
    | some r =>
      match k r with
      | some v => some v
      | none => tryAlts k rest s
    | none => tryAlts k rest s

/-- The optional `(?:de\s+)?` group (source patterns); skipping is safe when
the group fails because its continuations start with `\s*` or `\d`. -/
def optDeWs (s : Str) : Str :=
  match litP ("de".toList) s with
  | some r =>
    match wsPlus r with
    | some r2 => r2
    | none => s
  | none => s

/-- The optional `(?:au\s+)?` group. -/
def optAuWs (s : Str) : Str :=
  match litP ("au".toList) s with
  | some r =>
    match wsPlus r with
    | some r2 => r2
    | none => s
  | none => s

/-! ### extractMetersValue (src/index.js lines 71-90) -/

/-- Tail of the first meters pattern after `m(?:è|e)?tre`: the greedy
optional `s` with the negative lookahead `(?!\s*(?:²|2))`, including the
backtracking retry without the `s`. -/
def afterTre (total : Nat) (s : Str) : Option Nat :=
  match s with
  | 's' :: r =>
    if !surf2Ahead r then some (total - r.length)
    else if !surf2Ahead ('s' :: r) then some (total - ('s' :: r).length)
    else none
  | _ => if !surf2Ahead s then some (total - s.length) else none

/-- `tre` + `s?` + lookahead. -/
def treSuffix (total : Nat) (s : Str) : Option Nat :=
  match s with
  | 't' :: 'r' :: 'e' :: r => afterTre total r
  | _ => none

/-- Positional matcher for `/(\d+(?:[.,]\d+)?)\s*m(?:è|e)?tres?(?!\s*(?:²|2))/`.
The `(?:è|e)?` branches are prefix-disjoint from the following `tre`, so no
cross-branch retry is possible. -/
def mMetres (s : Str) : Option Nat :=
  match numTok s with
  | none => none
  | some r1 =>
    match wsStar r1 with
    | 'm' :: r2 =>
      match r2 with
      | 'è' :: r3 => treSuffix s.length r3
      | 'e' :: r3 => treSuffix s.length r3
      | _ => treSuffix s.length r2
    | _ => none

/-- Positional matcher for `/(\d+(?:[.,]\d+)?)\s*m(?!\s*(?:²|2|\d))/`. -/
def mBareM (s : Str) : Option Nat :=
  match numTok s with
  | none => none
  | some r1 =>
    match wsStar r1 with
    | 'm' :: r2 => if surfDigitAhead r2 then none else some (s.length - r2.length)
    | _ => none

/-- The shared extractor loop: for each pattern in order, find the leftmost
match, take the first number token of the match string, and return its
parsed value (the source returns `parseFrenchDecimal`'s result directly
once a number token is found). -/
def runNumExtract (pats : List (Str → Option Nat)) (text : Str) : Option ℚ :=
  match pats with
  | [] => none
  | p :: rest =>
    match findFirstLen p (jsToLower text) with
    | some (i, len) =>
      match firstNumToken ((text.drop i).take len) with
      | some tok => parseFrenchDecimal (some tok)
      | none => runNumExtract rest text
    | none => runNumExtract rest text

/-- `extractMetersValue` from src/index.js. -/
def extractMetersValue (t : Option Str) : Option ℚ :=
  match t with
  | some (c :: rest) => runNumExtract [mMetres, mBareM] (c :: rest)
  | _ => none

/-! ### extractMinimumMeters (src/index.js lines 92-111) -/

/-- `/minimum\s+(?:de\s+)?(\d+(?:[.,]\d+)?)\s*m(?!\s*(?:²|2))/` -/
def mMin1 (s : Str) : Option Nat :=
  (litP ("minimum".toList) s).bind fun r1 =>
  (wsPlus r1).bind fun r2 =>
  (numTok (optDeWs r2)).bind fun r3 =>
  (litP (['m']) (wsStar r3)).bind fun r4 =>
  if surf2Ahead r4 then none else some (s.length - r4.length)

/-- `/mini(?:mum)?\s*[:=]?\s*(\d+(?:[.,]\d+)?)\s*m(?!\s*(?:²|2))/` -/
def mMin2 (s : Str) : Option Nat :=
  (litP ("mini".toList) s).bind fun r1 =>
  let r2 :=
    match litP ("mum".toList) r1 with
    | some r => r
    | none => r1
  (numTok (wsStar (optColonEq (wsStar r2)))).bind fun r3 =>
  (litP (['m']) (wsStar r3)).bind fun r4 =>
  if surf2Ahead r4 then none else some (s.length - r4.length)

/-- `/au\s+moins\s+(\d+(?:[.,]\d+)?)\s*m(?!\s*(?:²|2))/` -/
def mMin3 (s : Str) : Option Nat :=
  (litP ("au".toList) s).bind fun r1 =>
  (wsPlus r1).bind fun r2 =>
  (litP ("moins".toList) r2).bind fun r3 =>
  (wsPlus r3).bind fun r4 =>
  (numTok r4).bind fun r5 =>
  (litP (['m']) (wsStar r5)).bind fun r6 =>
  if surf2Ahead r6 then none else some (s.length - r6.length)

/-- `/(\d+(?:[.,]\d+)?)\s*m(?!\s*(?:²|2))\s+(?:au\s+)?minimum/` -/
def mMin4 (s : Str) : Option Nat :=
  (numTok s).bind fun r1 =>
  (litP (['m']) (wsStar r1)).bind fun r2 =>
  if surf2Ahead r2 then none
  else
    (wsPlus r2).bind fun r3 =>
    (litP ("minimum".toList) (optAuWs r3)).bind fun r4 =>
    some (s.length - r4.length)

/-- `extractMinimumMeters` from src/index.js. -/
def extractMinimumMeters (t : Option Str) : Option ℚ :=
  match t with
  | some (c :: rest) => runNumExtract [mMin1, mMin2, mMin3, mMin4] (c :: rest)
  | _ => none

/-! ### detectRegleType (src/index.js lines 113-126) -/

/-- One alternative of the H/2 idiom pattern matches at this position:
`/h\s*\/\s*2|h÷2|hauteur\s*\/\s*2|moitié\s+de\s+la\s+hauteur/`. -/
def hOver2At (s : Str) : Bool :=
  (((litP (['h']) s).bind fun r1 =>
    (litP (['/']) (wsStar r1)).bind fun r2 =>
    litP (['2']) (wsStar r2)).isSome) ||
  ((litP ("h÷2".toList) s).isSome) ||
  (((litP ("hauteur".toList) s).bind fun r1 =>
    (litP (['/']) (wsStar r1)).bind fun r2 =>
    litP (['2']) (wsStar r2)).isSome) ||
  (((litP ("moitié".toList) s).bind fun r1 =>
    (wsPlus r1).bind fun r2 =>
    (litP ("de".toList) r2).bind fun r3 =>
    (wsPlus r3).bind fun r4 =>
    (litP ("la".toList) r4).bind fun r5 =>
    (wsPlus r5).bind fun r6 =>
    litP ("hauteur".toList) r6).isSome)

/-- One alternative of `/minimum|mini|au\s+moins/` matches here. -/
def minIdiomAt (s : Str) : Bool :=
  ((litP ("minimum".toList) s).isSome) ||
  ((litP ("mini".toList) s).isSome) ||
  (((litP ("au".toList) s).bind fun r1 =>
    (wsPlus r1).bind fun r2 =>
    litP ("moins".toList) r2).isSome)

/-- JS `a || b` on nullable numbers: `0` is falsy. -/
def jsNumOr (a b : Option ℚ) : Option ℚ :=
  match a with
  | some x => if x = 0 then b else some x
  | none => b

/-- `detectRegleType` from src/index.js.  The source lowercases the text
once and runs `/.../i.test` on it; since the tested string is already
lowercased, the case-insensitive flag adds nothing further. -/
def detectRegleType (t : Option Str) : Option String :=
  match t with
  | some (c :: rest) =>
    let lower := jsToLower (c :: rest)
    let hasH := existsMatchB hOver2At lower
    let hasMin := existsMatchB minIdiomAt lower
    if hasH && hasMin then some "H_OVER_2_MIN"
    else if hasH then some "H_OVER_2"
    else
      match jsNumOr (extractMinimumMeters t) (extractMetersValue t) with
      | some _ => some "FIXED"
      | none => none
  | _ => none

/-! ### Parking extractors (src/index.js lines 128-181) -/

/-- `/(\d+(?:[.,]\d+)?)\s*places?\s*(?:de\s+stationnement\s+)?par\s+logement/` -/
def mPlLog1 (s : Str) : Option Nat :=
  (numTok s).bind fun r1 =>
  (litP ("place".toList) (wsStar r1)).bind fun r2 =>
  let r3 := wsStar (optCharP 's' r2)
  let r4 :=
    match (litP ("de".toList) r3).bind fun a =>
        (wsPlus a).bind fun b =>
        (litP ("stationnement".toList) b).bind fun c =>
        wsPlus c with
    | some r => r
    | none => r3
  (litP ("par".toList) r4).bind fun r5 =>
  (wsPlus r5).bind fun r6 =>
  (litP ("logement".toList) r6).bind fun r7 =>
  some (s.length - r7.length)

/-- `/(\d+(?:[.,]\d+)?)\s*places?\s*\/\s*logement/` -/
def mPlLog2 (s : Str) : Option Nat :=
  (numTok s).bind fun r1 =>
  (litP ("place".toList) (wsStar r1)).bind fun r2 =>
  (litP (['/']) (wsStar (optCharP 's' r2))).bind fun r3 =>
  (litP ("logement".toList) (wsStar r3)).bind fun r4 =>
  some (s.length - r4.length)

/-- `/par\s+logement\s*[:=]?\s*(\d+(?:[.,]\d+)?)\s*places?/` -/
def mPlLog3 (s : Str) : Option Nat :=
  (litP ("par".toList) s).bind fun r1 =>
  (wsPlus r1).bind fun r2 =>
  (litP ("logement".toList) r2).bind fun r3 =>
  (numTok (wsStar (optColonEq (wsStar r3)))).bind fun r4 =>
  (litP ("place".toList) (wsStar r4)).bind fun r5 =>
  some (s.length - (optCharP 's' r5).length)

/-- `extractPlacesParLogement` from src/index.js. -/
def extractPlacesParLogement (t : Option Str) : Option ℚ :=
  match t with
  | some (c :: rest) => runNumExtract [mPlLog1, mPlLog2, mPlLog3] (c :: rest)
  | _ => none

/-- `/(\d+(?:[.,]\d+)?)\s*m²?\s*(?:par|\/)\s*place/`; the `par` and `/`
branches are prefix-disjoint. -/
def mSurfPl1 (s : Str) : Option Nat :=
  (numTok s).bind fun r1 =>
  (litP (['m']) (wsStar r1)).bind fun r2 =>
  let r3 := wsStar (optCharP '²' r2)
  let sep :=
    match litP ("par".toList) r3 with
    | some r => some r
    | none => litP (['/']) r3
  sep.bind fun r4 =>
  (litP ("place".toList) (wsStar r4)).bind fun r5 =>
  some (s.length - r5.length)

/-- `/place\s*[:=]?\s*(\d+(?:[.,]\d+)?)\s*m²/` -/
def mSurfPl2 (s : Str) : Option Nat :=
  (litP ("place".toList) s).bind fun r1 =>
  (numTok (wsStar (optColonEq (wsStar r1)))).bind fun r2 =>
  (litP ("m²".toList) (wsStar r2)).bind fun r3 =>
  some (s.length - r3.length)

/-- `extractSurfaceParPlace` from src/index.js. -/
def extractSurfaceParPlace (t : Option Str) : Option ℚ :=
  match t with
  | some (c :: rest) => runNumExtract [mSurfPl1, mSurfPl2] (c :: rest)
  | _ => none

/-- `/(\d+(?:[.,]\d+)?)\s*places?\s*(?:par|pour|\/)\s*100\s*m²/`; the three
separator branches are pairwise prefix-disjoint. -/
def mPl100a (s : Str) : Option Nat :=
  (numTok s).bind fun r1 =>
  (litP ("place".toList) (wsStar r1)).bind fun r2 =>
  let r3 := wsStar (optCharP 's' r2)
  let sep :=
    match litP ("par".toList) r3 with
    | some r => some r
    | none =>
      match litP ("pour".toList) r3 with
      | some r => some r
      | none => litP (['/']) r3
  sep.bind fun r4 =>
  (litP ("100".toList) (wsStar r4)).bind fun r5 =>
  (litP ("m²".toList) (wsStar r5)).bind fun r6 =>
  some (s.length - r6.length)

/-- `/100\s*m²\s*[:=]?\s*(\d+(?:[.,]\d+)?)\s*places?/` -/
def mPl100b (s : Str) : Option Nat :=
  (litP ("100".toList) s).bind fun r1 =>
  (litP ("m²".toList) (wsStar r1)).bind fun r2 =>
  (numTok (wsStar (optColonEq (wsStar r2)))).bind fun r3 =>
  (litP ("place".toList) (wsStar r3)).bind fun r4 =>
  some (s.length - (optCharP 's' r4).length)

/-- `extractPlacesPar100m2` from src/index.js. -/
def extractPlacesPar100m2 (t : Option Str) : Option ℚ :=
  match t with
  | some (c :: rest) => runNumExtract [mPl100a, mPl100b] (c :: rest)
  | _ => none

/-! ### extractHauteurMax (src/index.js lines 183-201) -/

/-- The `(?:maximale?|max\.?|maximum)` alternatives, in source order. -/
def maxAlts : List (Str → Option Str) :=
  [fun r => (litP ("maximal".toList) r).map (optCharP 'e'),
   fun r => (litP ("max".toList) r).map (optCharP '.'),
   fun r => litP ("maximum".toList) r]

/-- The optional `(?:de\s+|[:=])?` group: `de\s+`, then `[:=]`, then skip;
the branches are prefix-disjoint from each other and from the following
`\s*\d`. -/
def optDeOrColon (s : Str) : Str :=
  match (litP ("de".toList) s).bind wsPlus with
  | some r => r
  | none => optColonEq s

/-- `/hauteur\s+(?:maximale?|max\.?|maximum)\s*(?:de\s+|[:=])?\s*(\d+(?:[.,]\d+)?)\s*m(?!\s*(?:²|2))/` -/
def mHaut1 (s : Str) : Option Nat :=
  (litP ("hauteur".toList) s).bind fun r1 =>
  (wsPlus r1).bind fun r2 =>
  tryAlts
    (fun r3 =>
      (numTok (wsStar (optDeOrColon (wsStar r3)))).bind fun r4 =>
      (litP (['m']) (wsStar r4)).bind fun r5 =>
      if surf2Ahead r5 then none else some (s.length - r5.length))
    maxAlts r2

/-- `/(\d+(?:[.,]\d+)?)\s*m(?!\s*(?:²|2))\s*(?:de\s+)?hauteur\s+max/` -/
def mHaut2 (s : Str) : Option Nat :=
  (numTok s).bind fun r1 =>
  (litP (['m']) (wsStar r1)).bind fun r2 =>
  if surf2Ahead r2 then none
  else
    (litP ("hauteur".toList) (optDeWs (wsStar r2))).bind fun r3 =>
    (wsPlus r3).bind fun r4 =>
    (litP ("max".toList) r4).bind fun r5 =>
    some (s.length - r5.length)

/-- `/h\.?\s*max\.?\s*[:=]?\s*(\d+(?:[.,]\d+)?)\s*m(?!\s*(?:²|2))/` -/
def mHaut3 (s : Str) : Option Nat :=
  (litP (['h']) s).bind fun r1 =>
  (litP ("max".toList) (wsStar (optCharP '.' r1))).bind fun r2 =>
  (numTok (wsStar (optColonEq (wsStar (optCharP '.' r2))))).bind fun r3 =>
  (litP (['m']) (wsStar r3)).bind fun r4 =>
  if surf2Ahead r4 then none else some (s.length - r4.length)

/-- `extractHauteurMax` from src/index.js. -/
def extractHauteurMax (t : Option Str) : Option ℚ :=
  match t with
  | some (c :: rest) => runNumExtract [mHaut1, mHaut2, mHaut3] (c :: rest)
  | _ => none

/-! ### extractEmpriseSol (src/index.js lines 203-223) -/

/-- `/emprise\s+(?:au\s+)?sol\s*(?:maximale?|max\.?|maximum)?\s*(?:de\s+|[:=])?\s*(\d+(?:[.,]\d+)?)\s*%/`;
the optional max alternation needs continuation retry, with skipping the
group as the last branch. -/
def mEmp1 (s : Str) : Option Nat :=
  (litP ("emprise".toList) s).bind fun r1 =>
  (wsPlus r1).bind fun r2 =>
  (litP ("sol".toList) (optAuWs r2)).bind fun r3 =>
  tryAlts
    (fun r4 =>
      (numTok (wsStar (optDeOrColon (wsStar r4)))).bind fun r5 =>
      (litP (['%']) (wsStar r5)).bind fun r6 =>
      some (s.length - r6.length))
    (maxAlts ++ [fun r => some r]) (wsStar r3)

/-- `/(\d+(?:[.,]\d+)?)\s*%\s*(?:d[''])?emprise/` (the character class in
the source holds two plain apostrophes). -/
def mEmp2 (s : Str) : Option Nat :=
  (numTok s).bind fun r1 =>
  (litP (['%']) (wsStar r1)).bind fun r2 =>
  let r3 := wsStar r2
  let r4 :=
    match (litP (['d']) r3).bind fun a => litP ([Char.ofNat 39]) a with
    | some r => r
    | none => r3
  (litP ("emprise".toList) r4).bind fun r5 =>
  some (s.length - r5.length)

/-- `/ces?\s*[:=]?\s*(\d+(?:[.,]\d+)?)\s*%/` -/
def mEmp3 (s : Str) : Option Nat :=
  (litP ("ce".toList) s).bind fun r1 =>
  (numTok (wsStar (optColonEq (wsStar (optCharP 's' r1))))).bind fun r2 =>
  (litP (['%']) (wsStar r2)).bind fun r3 =>
  some (s.length - r3.length)

/-- The extractor loop of `extractEmpriseSol`: unlike the other extractors
it checks the parsed value for null and applies the percentage
normalization `val > 1 → val / 100` before returning; a null parse falls
through to the next pattern. -/
def empriseLoop (pats : List (Str → Option Nat)) (text : Str) : Option ℚ :=
  match pats with
  | [] => none
  | p :: rest =>
    match findFirstLen p (jsToLower text) with
    | some (i, len) =>
      match firstNumToken ((text.drop i).take len) with
      | some tok =>
        match parseFrenchDecimal (some tok) with
        | some val => some (if 1 < val then val / 100 else val)
        | none => empriseLoop rest text
      | none => empriseLoop rest text
    | none => empriseLoop rest text

/-- `extractEmpriseSol` from src/index.js. -/
def extractEmpriseSol (t : Option Str) : Option ℚ :=
  match t with
  | some (c :: rest) => empriseLoop [mEmp1, mEmp2, mEmp3] (c :: rest)
  | _ => none

example : extractMetersValue (some ("5 m²".toList)) = none := by decide

example : extractMetersValue (some ("12 m2".toList)) = none := by decide

example : extractMetersValue (some ("12 m ²".toList)) = none := by decide

example : (extractMetersValue (some ("5 m".toList))).isSome = true := by decide

example : (extractMetersValue (some ("5m".toList))).isSome = true := by decide

example : (extractMetersValue (some ("5 mètres".toList))).isSome = true := by
  decide

example : (extractMinimumMeters (some ("minimum de 3 m".toList))).isSome = true := by
  decide

example : (extractMinimumMeters (some ("au moins 4 m".toList))).isSome = true := by
  decide

example : (extractMinimumMeters (some ("3 m minimum".toList))).isSome = true := by
  decide

example : extractMinimumMeters (some ("minimum de 3 m²".toList)) = none := by
  decide

example :
    detectRegleType (some ("hauteur minimum de 3 m, sinon H/2".toList)) =
      some "H_OVER_2_MIN" := by
  decide

example : detectRegleType (some ("recul de H/2".toList)) = some "H_OVER_2" := by
  decide

example : (detectRegleType (some ("recul de 5 m".toList))) = some "FIXED" := by
  decide

example :
    (extractPlacesParLogement (some ("2 places par logement".toList))).isSome =
      true := by
  decide

example :
    (extractSurfaceParPlace (some ("25 m² par place".toList))).isSome = true := by
  decide

example :
    (extractPlacesPar100m2 (some ("3 places pour 100 m²".toList))).isSome =
      true := by
  decide

example :
    (extractHauteurMax (some ("hauteur maximale de 9 m".toList))).isSome =
      true := by
  decide

example :
    (extractHauteurMax (some ("hauteur maximum : 12 m".toList))).isSome =
      true := by
  decide

example :
    (extractEmpriseSol (some ("emprise au sol maximale de 60 %".toList))).isSome =
      true := by
  decide

example : (extractEmpriseSol (some ("CES : 60 %".toList))).isSome = true := by
  decide

example : (extractEmpriseSol (some ("xyz".toList))) = none := by decide

/-! ### Rule records and the repair pass (src/index.js lines 509-614)

JS `null`/`undefined` field values are both modelled as `none` (the raw
records come from `JSON.parse` of the extraction response, whose contract
uses `null`).  A raw response that is itself JSON `null` is a separate
constructor, since property access on it throws in JS; a primitive
non-null response behaves exactly like an object with every field absent,
which the all-`none` record represents. -/

structure ReculRec where
  regle : Option String
  min_m : Option ℚ
  note : Option Str
deriving DecidableEq

structure ImplRec where
  autorisee : Option Bool
  note : Option Str
deriving DecidableEq

structure StatRec where
  places_par_logement : Option ℚ
  surface_par_place_m2 : Option ℚ
  places_par_100m2 : Option ℚ
  note : Option Str
deriving DecidableEq

structure HautRec where
  hauteur_max_m : Option ℚ
  note : Option Str
deriving DecidableEq

structure EmpriseRec where
  emprise_sol_max : Option ℚ
  note : Option Str
deriving DecidableEq

structure RawReculs where
  voirie : Option ReculRec
  limites_separatives : Option ReculRec
  fond_parcelle : Option ReculRec
  implantation_en_limite : Option ImplRec
deriving DecidableEq

structure RawRuleset where
  zone_code : Option Str
  zone_libelle : Option Str
  reculs : Option RawReculs
  stationnement : Option StatRec
  hauteur : Option HautRec
  emprise_sol : Option EmpriseRec
  articles_source : Option (List Str)
deriving DecidableEq

/-- A raw extraction response value. -/
inductive JSRaw
  | jsNull
  | jsObj (r : RawRuleset)
deriving DecidableEq

structure Reculs4 where
  voirie : ReculRec
  limites_separatives : ReculRec
  fond_parcelle : ReculRec
  implantation_en_limite : ImplRec
deriving DecidableEq

structure ZoneRuleset where
  zone_code : Str
  zone_libelle : Option Str
  reculs : Reculs4
  stationnement : StatRec
  hauteur : HautRec
  emprise_sol : EmpriseRec
  articles_source : List Str
deriving DecidableEq

/-- `postProcessRecul` from src/index.js (lines 509-528). -/
def postProcessRecul (recul : Option ReculRec) : ReculRec :=
  match recul with
  | none => ⟨none, none, none⟩
  | some r =>
    let note := cleanNote r.note
    let min_m :=
      if r.min_m = none ∧ strTruthy note then
        jsNumOr (extractMinimumMeters note) (extractMetersValue note)
      else r.min_m
    let regle :=
      if r.regle = none ∧ strTruthy note then detectRegleType note
      else r.regle
    let regle2 :=
      if regle = some "H_OVER_2" ∧ min_m ≠ none then some "H_OVER_2_MIN"
      else regle
    ⟨regle2, min_m, note⟩

/-- One alternative of `/autoris[ée]|permis|possible|admis/` matches at this
position. -/
def autorisPosAt (s : Str) : Bool :=
  (((litP ("autoris".toList) s).bind fun r =>
      match r with
      | c :: rest => if c = 'é' ∨ c = 'e' then some rest else none
      | [] => none).isSome) ||
  (litP ("permis".toList) s).isSome ||
  (litP ("possible".toList) s).isSome ||
  (litP ("admis".toList) s).isSome

/-- `/non\s+autoris/` matches at this position. -/
def nonAutorisAt (s : Str) : Bool :=
  ((litP ("non".toList) s).bind fun r =>
    (wsPlus r).bind fun r2 => litP ("autoris".toList) r2).isSome

/-- One alternative of `/interdit|non\s+autoris|pas\s+autoris/` matches at
this position. -/
def interditAt (s : Str) : Bool :=
  (litP ("interdit".toList) s).isSome ||
  nonAutorisAt s ||
  ((litP ("pas".toList) s).bind fun r =>
    (wsPlus r).bind fun r2 => litP ("autoris".toList) r2).isSome

/-- `postProcessImplantationLimite` from src/index.js (lines 530-546). -/
def postProcessImplantationLimite (impl : Option ImplRec) : ImplRec :=
  match impl with
  | none => ⟨none, none⟩
  | some r =>
    let note := cleanNote r.note
    let autorisee :=
      if r.autorisee = none ∧ strTruthy note then
        let lower := jsToLower (note.getD [])
        if existsMatchB autorisPosAt lower ∧ ¬ existsMatchB nonAutorisAt lower then
          some true
        else if existsMatchB interditAt lower then some false
        else none
      else r.autorisee
    ⟨autorisee, note⟩

/-- `postProcessStationnement` from src/index.js (lines 548-565). -/
def postProcessStationnement (stat : Option StatRec) : StatRec :=
  match stat with
  | none => ⟨none, none, none, none⟩
  | some r =>
    let note := cleanNote r.note
    let p1 :=
      if r.places_par_logement = none ∧ strTruthy note then
        extractPlacesParLogement note
      else r.places_par_logement
    let p2 :=
      if r.surface_par_place_m2 = none ∧ strTruthy note then
        extractSurfaceParPlace note
      else r.surface_par_place_m2
    let p3 :=
      if r.places_par_100m2 = none ∧ strTruthy note then
        extractPlacesPar100m2 note
      else r.places_par_100m2
    ⟨p1, p2, p3, note⟩

/-- `postProcessHauteur` from src/index.js (lines 567-578). -/
def postProcessHauteur (haut : Option HautRec) : HautRec :=
  match haut with
  | none => ⟨none, none⟩
  | some r =>
    let note := cleanNote r.note
    let h :=
      if r.hauteur_max_m = none ∧ strTruthy note then extractHauteurMax note
      else r.hauteur_max_m
    ⟨h, note⟩

/-- `postProcessEmprise` from src/index.js (lines 580-595). -/
def postProcessEmprise (emp : Option EmpriseRec) : EmpriseRec :=
  match emp with
  | none => ⟨none, none⟩
  | some r =>
    let note := cleanNote r.note
    let e1 :=
      if r.emprise_sol_max = none ∧ strTruthy note then extractEmpriseSol note
      else r.emprise_sol_max
    let e2 :=
      match e1 with
      | some v => if 1 < v then some (v / 100) else some v
      | none => none
    ⟨e2, note⟩

/-- JS `a || b` where `a` is a nullable string and `b` a string. -/
def jsOrStr (a : Option Str) (b : Str) : Str :=
  match a with
  | some (c :: r) => c :: r
  | _ => b

/-- JS `a || b || null` on nullable strings. -/
def jsOrStr2 (a b : Option Str) : Option Str :=
  if strTruthy a then a else if strTruthy b then b else none

/-- `postProcessZoneRuleset` from src/index.js (lines 597-614).  Property
access `raw.zone_code` on a JSON `null` response throws a `TypeError` in
JS, modelled by `Except.error`. -/
def postProcessZoneRuleset (raw : JSRaw) (zoneCode : Str)
    (zoneLibelle : Option Str) : Except Unit ZoneRuleset :=
  match raw with
  | .jsNull => .error ()
  | .jsObj r =>
    .ok
      { zone_code := jsOrStr r.zone_code zoneCode
        zone_libelle := jsOrStr2 r.zone_libelle zoneLibelle
        reculs :=
          { voirie := postProcessRecul (r.reculs.bind RawReculs.voirie)
            limites_separatives :=
              postProcessRecul (r.reculs.bind RawReculs.limites_separatives)
            fond_parcelle :=
              postProcessRecul (r.reculs.bind RawReculs.fond_parcelle)
            implantation_en_limite :=
              postProcessImplantationLimite
                (r.reculs.bind RawReculs.implantation_en_limite) }
        stationnement := postProcessStationnement r.stationnement
        hauteur := postProcessHauteur r.hauteur
        emprise_sol := postProcessEmprise r.emprise_sol
        articles_source := r.articles_source.getD [] }

/-! ### Claim C1: footprint-ratio normalization -/

theorem char_ne_of_toNat {d c : Char} (h : d.toNat ≠ c.toNat) : d ≠ c :=
  fun e => h (by rw [e])

theorem numTokenLen_head {t : Str} {len : Nat} (h : numTokenLen t = some len) :
    1 ≤ len ∧ ∃ d r, t = d :: r ∧ isDigitC d = true := by
  unfold numTokenLen at h
  by_cases hds : t.takeWhile isDigitC = []
  · rw [if_pos hds] at h
    exact absurd h (by simp)
  · rw [if_neg hds] at h
    have hd1 : 1 ≤ (t.takeWhile isDigitC).length := by
      cases hq : t.takeWhile isDigitC with
      | nil => exact absurd hq hds
      | cons a l => simp
    have hdr : ∃ d r, t = d :: r ∧ isDigitC d = true := by
      cases t with
      | nil => simp at hds
      | cons d r =>
        by_cases hd : isDigitC d = true
        · exact ⟨d, r, rfl, hd⟩
        · simp [List.takeWhile_cons, hd] at hds
    refine ⟨?_, hdr⟩
    split at h
    · split at h
      · dsimp only at h
        split at h
        · simp only [Option.some.injEq] at h; omega
        · simp only [Option.some.injEq] at h; omega
      · simp only [Option.some.injEq] at h; omega
    · simp only [Option.some.injEq] at h; omega

theorem findFirstLen_structure {m : Str → Option Nat} :
    ∀ {s : Str} {i len : Nat}, findFirstLen m s = some (i, len) →
      m (s.drop i) = some len := by
  intro s
  induction s with
  | nil =>
    intro i len h
    simp only [findFirstLen] at h
    cases hm : m [] with
    | none => rw [hm] at h; simp at h
    | some l =>
      rw [hm] at h
      simp only [Option.map_some', Option.some.injEq, Prod.mk.injEq] at h
      obtain ⟨h1, h2⟩ := h
      subst h1 h2
      simpa using hm
  | cons c rest ih =>
    intro i len h
    simp only [findFirstLen] at h
    cases hm : m (c :: rest) with
    | some l =>
      rw [hm] at h
      simp only [Option.some.injEq, Prod.mk.injEq] at h
      obtain ⟨h1, h2⟩ := h
      subst h1 h2
      simpa using hm
    | none =>
      rw [hm] at h
      cases hr : findFirstLen m rest with
      | none => rw [hr] at h; simp at h
      | some p =>
        obtain ⟨j, l2⟩ := p
        rw [hr] at h
        simp only [Option.map_some', Option.some.injEq, Prod.mk.injEq] at h
        obtain ⟨h1, h2⟩ := h
        subst h1 h2
        rw [List.drop_succ_cons]
        exact ih hr

theorem firstNumToken_head {s tok : Str} (h : firstNumToken s = some tok) :
    ∃ d r, tok = d :: r ∧ isDigitC d = true := by
  unfold firstNumToken at h
  cases hf : findFirstLen numTokenLen s with
  | none => rw [hf] at h; simp at h
  | some p =>
    obtain ⟨i, len⟩ := p
    rw [hf] at h
    simp only [Option.some.injEq] at h
    subst h
    obtain ⟨hlen, d, r, hdr, hd⟩ := numTokenLen_head (findFirstLen_structure hf)
    refine ⟨d, r.take (len - 1), ?_, hd⟩
    rw [hdr]
    cases len with
    | zero => omega
    | succ n => simp

theorem fracValQ_nonneg (ds : Str) : 0 ≤ fracValQ ds := by
  unfold fracValQ
  positivity

theorem jsParseFloat_nonneg_of_digit {d : Char} (r : Str)
    (hd : isDigitC d = true) :
    ∃ q, jsParseFloat (d :: r) = some q ∧ 0 ≤ q := by
  have hw := not_ws_of_digit hd
  have h48 := isDigitC_toNat hd
  have hm : d ≠ '-' := char_ne_of_toNat (by
    have : ('-').toNat = 45 := rfl
    omega)
  have hp : d ≠ '+' := char_ne_of_toNat (by
    have : ('+').toNat = 43 := rfl
    omega)
  have h1 : (d :: r).dropWhile isJsWs = d :: r := by
    simp [List.dropWhile_cons, hw]
  have hInt : (d :: r).takeWhile isDigitC = d :: r.takeWhile isDigitC := by
    simp [List.takeWhile_cons, hd]
  simp only [jsParseFloat, h1, List.head?_cons, Option.some.injEq, hm, hp,
    if_false, or_self, ite_false, if_neg, hInt]
  rw [if_neg (by simp)]
  refine ⟨_, rfl, ?_⟩
  refine mul_nonneg (mul_nonneg ?_ ?_) ?_
  · norm_num
  · exact add_nonneg (by positivity) (fracValQ_nonneg _)
  · positivity

theorem parseFrenchDecimal_nonneg_of_digit {d : Char} {r : Str}
    (hd : isDigitC d = true) :
    ∀ q, parseFrenchDecimal (some (d :: r)) = some q → 0 ≤ q := by
  intro q h
  have h48 := isDigitC_toNat hd
  have hcomma : (',' == d) = false := by
    have : d ≠ ',' := char_ne_of_toNat (by
      have : (',').toNat = 44 := rfl
      omega)
    simpa [beq_eq_false_iff_ne] using fun e => this e.symm
  have h1 : replaceFirstStr [','] ['.'] (d :: r) =
      d :: replaceFirstStr [','] ['.'] r := by
    simp [replaceFirstStr, List.isPrefixOf, hcomma]
  have h2 : (d :: replaceFirstStr [','] ['.'] r).filter (fun c => !isJsWs c) =
      d :: (replaceFirstStr [','] ['.'] r).filter (fun c => !isJsWs c) := by
    simp [List.filter_cons, not_ws_of_digit hd]
  rw [parseFrenchDecimal] at h
  simp only [if_neg (by simp : ¬(d :: r = [])), h1, h2] at h
  obtain ⟨q2, hq2, hnn⟩ :=
    jsParseFloat_nonneg_of_digit
      ((replaceFirstStr [','] ['.'] r).filter (fun c => !isJsWs c)) hd
  rw [hq2] at h
  cases h
  exact hnn

theorem empriseLoop_shape :
    ∀ (pats : List (Str → Option Nat)) (text : Str) (x : ℚ),
      empriseLoop pats text = some x →
      ∃ v : ℚ, 0 ≤ v ∧ x = if 1 < v then v / 100 else v := by
  intro pats
  induction pats with
  | nil => intro text x h; simp [empriseLoop] at h
  | cons p rest ih =>
    intro text x h
    simp only [empriseLoop] at h
    split at h
    · rename_i pr hf
      split at h
      · rename_i tok htok
        split at h
        · rename_i val hval
          simp only [Option.some.injEq] at h
          obtain ⟨d, r, hdr, hd⟩ := firstNumToken_head htok
          have hnn : 0 ≤ val :=
            parseFrenchDecimal_nonneg_of_digit hd val (hdr ▸ hval)
          exact ⟨val, hnn, h.symm⟩
        · exact ih text x h
      · exact ih text x h
    · exact ih text x h

/-- C1 counterexample: the repair pass stores the raw footprint value `150`
as `150 / 100 = 1.5`, which is greater than `1` — the claimed interval
`[0, 1]` does not hold for captured values above 100, because the
percentage division is applied only once. -/
theorem C1_counterexample :
    (postProcessEmprise (some ⟨some 150, none⟩)).emprise_sol_max =
      some (3 / 2 : ℚ) ∧ ¬((3 / 2 : ℚ) ≤ 1) := by
  constructor
  · norm_num [postProcessEmprise, cleanNote, cleanNoteWith, strTruthy]
  · norm_num

/-- C1 (amended): the emprise repair stores `v/100` for a raw value
`v > 1` and `v` unchanged for `v ≤ 1`; the stored value lies in `[0, 1]`
whenever the raw value lies in `[0, 100]` (not for every raw value); and
every value the extractor `extractEmpriseSol` produces is obtained from a
nonnegative captured value by the same one-shot percentage rule. -/
theorem C1_emprise_normalization :
    (∀ (v : ℚ) (note : Option Str),
      (postProcessEmprise (some ⟨some v, note⟩)).emprise_sol_max =
        some (if 1 < v then v / 100 else v)) ∧
    (∀ (v : ℚ) (note : Option Str), 0 ≤ v → v ≤ 100 →
      ∃ x, (postProcessEmprise (some ⟨some v, note⟩)).emprise_sol_max =
        some x ∧ 0 ≤ x ∧ x ≤ 1) ∧
    (∀ (t : Option Str) (x : ℚ), extractEmpriseSol t = some x →
      ∃ v : ℚ, 0 ≤ v ∧ x = if 1 < v then v / 100 else v) := by
  have hmain : ∀ (v : ℚ) (note : Option Str),
      (postProcessEmprise (some ⟨some v, note⟩)).emprise_sol_max =
        some (if 1 < v then v / 100 else v) := by
    intro v note
    simp only [postProcessEmprise]
    rw [if_neg (by simp)]
    by_cases h1 : 1 < v
    · simp [h1]
    · simp [h1]
  refine ⟨hmain, ?_, ?_⟩
  · intro v note h0 h100
    refine ⟨if 1 < v then v / 100 else v, hmain v note, ?_, ?_⟩
    · split
      · positivity
      · exact h0
    · split
      · rw [div_le_one (by norm_num : (0:ℚ) < 100)]
        exact h100
      · exact le_of_not_lt (by assumption)
  · intro t x h
    cases t with
    | none => simp [extractEmpriseSol] at h
    | some s =>
      cases s with
      | nil => simp [extractEmpriseSol] at h
      | cons c cs => exact empriseLoop_shape _ _ _ h

/-- Witness for the amended C1 at the concrete raw value 60: the stored
value is in `[0, 1]`. -/
theorem C1_emprise_normalization_witness :
    ∃ x, (postProcessEmprise (some ⟨some 60, none⟩)).emprise_sol_max =
      some x ∧ 0 ≤ x ∧ x ≤ 1 :=
  C1_emprise_normalization.2.1 60 none (by norm_num) (by norm_num)

/-! ### Claim C2: setback tag consistency -/

/-- C2 counterexample: a raw setback record with non-null `min_m = 5` but
null `regle` and null note passes through the repair unchanged, so the
output has non-null `min_m` while `regle` is neither `H_OVER_2_MIN` nor
`FIXED` — it is null. -/
theorem C2_counterexample :
    (postProcessRecul (some ⟨none, some 5, none⟩)).min_m = some 5 ∧
    (postProcessRecul (some ⟨none, some 5, none⟩)).regle ≠
      some "H_OVER_2_MIN" ∧
    (postProcessRecul (some ⟨none, some 5, none⟩)).regle ≠ some "FIXED" := by
  refine ⟨?_, ?_, ?_⟩ <;> decide

/-- C2 (amended): for every repaired setback record with non-null `min_m`,
`regle` is never `H_OVER_2` (the upgrade to `H_OVER_2_MIN` fires whenever
`H_OVER_2` would co-occur with a non-null `min_m`); but `regle` is not
forced into {`H_OVER_2_MIN`, `FIXED`} — it may also remain null. -/
theorem regle_upgrade_ne (rg : Option String) (mm : Option ℚ)
    (h : mm ≠ none) :
    (if rg = some "H_OVER_2" ∧ mm ≠ none then some "H_OVER_2_MIN" else rg) ≠
      some "H_OVER_2" := by
  split
  · simp
  · rename_i hcond
    intro he
    exact hcond ⟨he, h⟩

theorem C2_setback_tag_consistency (recul : Option ReculRec)
    (h : (postProcessRecul recul).min_m ≠ none) :
    (postProcessRecul recul).regle ≠ some "H_OVER_2" := by
  cases recul with
  | none => simp [postProcessRecul] at h
  | some r => exact regle_upgrade_ne _ _ h

/-- Witness for the amended C2: with raw `regle = "H_OVER_2"` and
`min_m = 5` the upgrade fires and the output tag is not `H_OVER_2`. -/
theorem C2_setback_tag_consistency_witness :
    (postProcessRecul (some ⟨some "H_OVER_2", some 5, none⟩)).min_m ≠ none ∧
    (postProcessRecul (some ⟨some "H_OVER_2", some 5, none⟩)).regle ≠
      some "H_OVER_2" :=
  ⟨by decide, C2_setback_tag_consistency _ (by decide)⟩

/-! ### Claim C3: totality of the ruleset repair -/

/-- C3 counterexample: on the raw extraction result JSON `null` the repair
pass does not return a ruleset — property access on `null` throws in JS,
modelled by `Except.error`; the per-zone `try/catch` of the caller is what
absorbs this case. -/
theorem C3_counterexample :
    ∃ e, postProcessZoneRuleset JSRaw.jsNull ("UA".toList) none =
      Except.error e :=
  ⟨(), rfl⟩

/-- C3 (amended): for every *non-null* raw extraction object — including
objects with every field group missing or null — the repair pass returns
(never throws) a structurally complete `ZoneRuleset` (the return type
itself contains every leaf group), and each omitted group comes out as its
all-null default. -/
theorem C3_repair_total_on_objects (r : RawRuleset) (code : Str)
    (lib : Option Str) :
    ∃ z : ZoneRuleset,
      postProcessZoneRuleset (JSRaw.jsObj r) code lib = Except.ok z ∧
      (r.reculs = none →
        z.reculs.voirie = ⟨none, none, none⟩ ∧
        z.reculs.limites_separatives = ⟨none, none, none⟩ ∧
        z.reculs.fond_parcelle = ⟨none, none, none⟩ ∧
        z.reculs.implantation_en_limite = ⟨none, none⟩) ∧
      (r.stationnement = none → z.stationnement = ⟨none, none, none, none⟩) ∧
      (r.hauteur = none → z.hauteur = ⟨none, none⟩) ∧
      (r.emprise_sol = none → z.emprise_sol = ⟨none, none⟩) ∧
      (r.articles_source = none → z.articles_source = []) := by
  refine ⟨_, rfl, ?_, ?_, ?_, ?_, ?_⟩
  · intro h
    dsimp only [postProcessZoneRuleset]
    rw [h]
    exact ⟨rfl, rfl, rfl, rfl⟩
  · intro h
    dsimp only [postProcessZoneRuleset]
    rw [h]
    rfl
  · intro h
    dsimp only [postProcessZoneRuleset]
    rw [h]
    rfl
  · intro h
    dsimp only [postProcessZoneRuleset]
    rw [h]
    rfl
  · intro h
    dsimp only [postProcessZoneRuleset]
    rw [h]
    rfl

/-- Witness for the amended C3 at the all-absent raw object. -/
theorem C3_repair_total_on_objects_witness :
    ∃ z, postProcessZoneRuleset
        (JSRaw.jsObj ⟨none, none, none, none, none, none, none⟩)
        ("UA".toList) none = Except.ok z ∧
      z.reculs.voirie = ⟨none, none, none⟩ ∧ z.hauteur = ⟨none, none⟩ := by
  obtain ⟨z, hz, h1, _, h3, _, _⟩ :=
    C3_repair_total_on_objects ⟨none, none, none, none, none, none, none⟩
      ("UA".toList) none
  exact ⟨z, hz, (h1 rfl).1, h3 rfl⟩

/-! ### Zone excerpt builder (src/index.js lines 345-432)

The zone and article patterns use `\b` word boundaries, which depend on the
character to the left of the match position, so the scanner threads the
previous character. -/

def isWordOpt : Option Char → Bool
  | some c => isWordChar c
  | none => false

/-- A `\b` boundary between a left and a right character (either may be
absent at the ends of the text). -/
def bdry (l r : Option Char) : Bool := isWordOpt l != isWordOpt r

/-- The last character consumed by a matcher that started at `s` and left
`rest` (used for trailing `\b` checks). -/
def lastConsumed (s rest : Str) : Option Char :=
  (s.take (s.length - rest.length)).getLast?

/-- Position scan with previous-character context; returns the index of the
leftmost matching position. -/
def findAtFrom (m : Option Char → Str → Option Nat) :
    Option Char → Nat → Str → Option Nat
  | prev, i, [] => if (m prev []).isSome then some i else none
  | prev, i, c :: rest =>
    if (m prev (c :: rest)).isSome then some i
    else findAtFrom m (some c) (i + 1) rest

def findMatchIdx (m : Option Char → Str → Option Nat) (s : Str) : Option Nat :=
  findAtFrom m none 0 s

/-- Scan starting at absolute index `start` (the `lastIndex` mechanism of a
sticky-free `g` regex); `\b` at the start position can still see the
character at `start - 1`. -/
def findMatchIdxFrom (m : Option Char → Str → Option Nat) (start : Nat)
    (s : Str) : Option Nat :=
  if s.length < start then none
  else findAtFrom m (if start = 0 then none else (s.take start).getLast?)
    start (s.drop start)

/-- `zone\s+CODE\b` (no leading boundary). -/
def zonePat1 (code : Str) (_ : Option Char) (s : Str) : Option Nat :=
  (litP ("zone".toList) s).bind fun r1 =>
  (wsPlus r1).bind fun r2 =>
  (litP code r2).bind fun r3 =>
  if bdry (lastConsumed s r3) r3.head? then some (s.length - r3.length)
  else none

/-- `\bCODE\s+[-–]`. -/
def zonePat2 (code : Str) (prev : Option Char) (s : Str) : Option Nat :=
  if bdry prev s.head? = false then none
  else
    (litP code s).bind fun r1 =>
    (wsPlus r1).bind fun r2 =>
    match r2 with
    | c :: r3 =>
      if c = '-' ∨ c.toNat = 0x2013 then some (s.length - r3.length) else none
    | [] => none

/-- `\bCODE\b`. -/
def zonePat3 (code : Str) (prev : Option Char) (s : Str) : Option Nat :=
  if bdry prev s.head? = false then none
  else
    (litP code s).bind fun r1 =>
    if bdry (lastConsumed s r1) r1.head? then some (s.length - r1.length)
    else none

/-- `article\s+N\b`. -/
def artPat1 (num : Str) (_ : Option Char) (s : Str) : Option Nat :=
  (litP ("article".toList) s).bind fun r1 =>
  (wsPlus r1).bind fun r2 =>
  (litP num r2).bind fun r3 =>
  if bdry (lastConsumed s r3) r3.head? then some (s.length - r3.length)
  else none

/-- `art\.?\s*N\b`. -/
def artPat2 (num : Str) (_ : Option Char) (s : Str) : Option Nat :=
  (litP ("art".toList) s).bind fun r1 =>
  (litP num (wsStar (optCharP '.' r1))).bind fun r3 =>
  if bdry (lastConsumed s r3) r3.head? then some (s.length - r3.length)
  else none

/-- `N\s*[-–:]\s*`. -/
def artPat3 (num : Str) (_ : Option Char) (s : Str) : Option Nat :=
  (litP num s).bind fun r1 =>
  match wsStar r1 with
  | c :: r2 =>
    if c = '-' ∨ c.toNat = 0x2013 ∨ c = ':' then
      some (s.length - (wsStar r2).length)
    else none
  | [] => none

/-- The hard-coded sibling zone codes used to bound a zone's span. -/
def allZoneCodes : List Str :=
  ["UA".toList, "UB".toList, "UC".toList, "UD".toList, "UE".toList,
   "UF".toList, "UG".toList, "UH".toList, "UI".toList, "UJ".toList,
   "UK".toList, "UL".toList, "UM".toList, "UN".toList, "1AU".toList,
   "2AU".toList]

/-- `\bzone\s+OTHER\b`. -/
def nextZonePat (other : Str) (prev : Option Char) (s : Str) : Option Nat :=
  if bdry prev s.head? = false then none
  else
    (litP ("zone".toList) s).bind fun r1 =>
    (wsPlus r1).bind fun r2 =>
    (litP other r2).bind fun r3 =>
    if bdry (lastConsumed s r3) r3.head? then some (s.length - r3.length)
    else none

/-- The `zoneEnd` loop of `findArticleExcerpt`: the earliest `zone <other>`
heading found at or after `zoneStart + 100`. -/
def nextZoneEnd (textLower zoneCodeLower : Str) (zoneStart : Nat) : Nat :=
  allZoneCodes.foldl
    (fun zoneEnd other =>
      if jsToLower other = zoneCodeLower then zoneEnd
      else
        match findMatchIdxFrom (nextZonePat (jsToLower other))
            (zoneStart + 100) textLower with
        | some i => if i < zoneEnd then i else zoneEnd
        | none => zoneEnd)
    textLower.length

/-- The `zoneStart` selection of `findArticleExcerpt` (first of the three
zone patterns with a match; `-1` falls back to `0`). -/
def zoneStartIdx (textLower zl : Str) : Nat :=
  match findMatchIdx (zonePat1 zl) textLower with
  | some i => i
  | none =>
    match findMatchIdx (zonePat2 zl) textLower with
    | some i => i
    | none =>
      match findMatchIdx (zonePat3 zl) textLower with
      | some i => i
      | none => 0

/-- The zone's working span `[zoneStart, zoneEnd)` of `findArticleExcerpt`. -/
def zoneSpan (text zone : Str) : Str :=
  let textLower := jsToLower text
  let zl := jsToLower zone
  let zoneStart := zoneStartIdx textLower zl
  jsSlice text zoneStart (nextZoneEnd textLower zl zoneStart)

/-- The article-heading search within the zone text (three patterns in
source order). -/
def articleIdx (ztLower : Str) (num : Str) : Option Nat :=
  match findMatchIdx (artPat1 num) ztLower with
  | some i => some i
  | none =>
    match findMatchIdx (artPat2 num) ztLower with
    | some i => some i
    | none => findMatchIdx (artPat3 num) ztLower

/-- The excerpt window around a located article heading. -/
def excerptAt (zoneText : Str) (articleStart : Nat) (windowSize : Nat) : Str :=
  jsSlice zoneText (articleStart - 200)
    (min zoneText.length (articleStart + windowSize))

/-- `findArticleExcerpt` from src/index.js (lines 345-404). -/
def findArticleExcerpt (text : Str) (articleNum : Str) (zoneCode : Str)
    (windowSize : Nat) : Str :=
  let zoneText := zoneSpan text zoneCode
  match articleIdx (jsToLower zoneText) articleNum with
  | some i => excerptAt zoneText i windowSize
  | none => []

structure ZoneExcerpts where
  zone_code : Str
  extrait_article_6 : Str
  extrait_article_7 : Str
  extrait_article_10 : Str
  extrait_article_12 : Str
  extrait_article_9 : Str
  fallback_context : Str
deriving DecidableEq

/-- `buildZoneExcerpts` from src/index.js (lines 406-432). -/
def buildZoneExcerpts (fullText : Str) (zoneCode : Str) : ZoneExcerpts :=
  let article6 := findArticleExcerpt fullText ("6".toList) zoneCode 4000
  let article7 := findArticleExcerpt fullText ("7".toList) zoneCode 4000
  let article12 := findArticleExcerpt fullText ("12".toList) zoneCode 4000
  let article10 := findArticleExcerpt fullText ("10".toList) zoneCode 3000
  let article9 := findArticleExcerpt fullText ("9".toList) zoneCode 3000
  let fallback :=
    match findMatchIdx (zonePat1 (jsToLower zoneCode)) (jsToLower fullText) with
    | some i => jsSlice fullText (i - 500) (min fullText.length (i + 6000))
    | none => []
  { zone_code := zoneCode
    extrait_article_6 := article6.take 6000
    extrait_article_7 := article7.take 6000
    extrait_article_10 := article10.take 4000
    extrait_article_12 := article12.take 6000
    extrait_article_9 := article9.take 4000
    fallback_context := fallback.take 4000 }

example :
    (buildZoneExcerpts ("ZONE UA recul des constructions ZONE UB suite".toList)
      ("UA".toList)).extrait_article_6 = [] := by
  decide

example :
    (buildZoneExcerpts ("ZONE UA recul des constructions ZONE UB suite".toList)
      ("UA".toList)).fallback_context ≠ [] := by
  decide

example :
    (buildZoneExcerpts ("zone ua xx article 6 : recul 5 m zone ub".toList)
      ("UA".toList)).extrait_article_6 ≠ [] := by
  decide

/-! ### Claim C6: excerpt windows -/

theorem jsSlice_length (s : Str) (a b : Nat) :
    (jsSlice s a b).length = min b s.length - a := by
  simp [jsSlice]

theorem excerptAt_length (zt : Str) (i w : Nat) :
    (excerptAt zt i w).length ≤ 200 + w := by
  simp only [excerptAt, jsSlice_length]
  omega

theorem findArticleExcerpt_length (text num zone : Str) (w : Nat) :
    (findArticleExcerpt text num zone w).length ≤ 200 + w := by
  unfold findArticleExcerpt
  dsimp only
  split
  · apply excerptAt_length
  · simp

/-- C6 (amended): each article excerpt of `buildZoneExcerpts` is exactly
`findArticleExcerpt` with window size 4000 (articles 6, 7, 12) or 3000
(articles 9, 10) — not 6000/4000: the outer `slice(0, 6000)` /
`slice(0, 4000)` caps never bind, because an excerpt extends at most 200
characters before the heading plus the window size after it.  Each
non-empty excerpt is the window of the zone span from 200 before the
located heading to `windowSize` after it (clamped to the span). -/
theorem C6_excerpt_windows (text zone : Str) :
    ((buildZoneExcerpts text zone).extrait_article_6 =
      findArticleExcerpt text ("6".toList) zone 4000) ∧
    ((buildZoneExcerpts text zone).extrait_article_7 =
      findArticleExcerpt text ("7".toList) zone 4000) ∧
    ((buildZoneExcerpts text zone).extrait_article_12 =
      findArticleExcerpt text ("12".toList) zone 4000) ∧
    ((buildZoneExcerpts text zone).extrait_article_10 =
      findArticleExcerpt text ("10".toList) zone 3000) ∧
    ((buildZoneExcerpts text zone).extrait_article_9 =
      findArticleExcerpt text ("9".toList) zone 3000) ∧
    (∀ num w, findArticleExcerpt text num zone w = [] ∨
      ∃ i, articleIdx (jsToLower (zoneSpan text zone)) num = some i ∧
        findArticleExcerpt text num zone w =
          jsSlice (zoneSpan text zone) (i - 200)
            (min (zoneSpan text zone).length (i + w))) := by
  refine ⟨?_, ?_, ?_, ?_, ?_, ?_⟩
  · exact List.take_of_length_le
      (le_trans (findArticleExcerpt_length text ("6".toList) zone 4000)
        (by norm_num))
  · exact List.take_of_length_le
      (le_trans (findArticleExcerpt_length text ("7".toList) zone 4000)
        (by norm_num))
  · exact List.take_of_length_le
      (le_trans (findArticleExcerpt_length text ("12".toList) zone 4000)
        (by norm_num))
  · exact List.take_of_length_le
      (le_trans (findArticleExcerpt_length text ("10".toList) zone 3000)
        (by norm_num))
  · exact List.take_of_length_le
      (le_trans (findArticleExcerpt_length text ("9".toList) zone 3000)
        (by norm_num))
  · intro num w
    unfold findArticleExcerpt
    dsimp only
    split
    · rename_i i hi
      exact Or.inr ⟨i, hi, rfl⟩
    · exact Or.inl rfl

theorem litP_head {c : Char} {lit s r : Str} (h : litP (c :: lit) s = some r) :
    s.head? = some c := by
  unfold litP at h
  split at h
  · rename_i hp
    cases s with
    | nil => simp [List.isPrefixOf] at hp
    | cons d t =>
      simp only [List.isPrefixOf, Bool.and_eq_true, beq_iff_eq] at hp
      simp [hp.1]
  · exact absurd h (by simp)

theorem zonePat1_head {code : Str} {prev : Option Char} {s : Str}
    (h : (zonePat1 code prev s).isSome = true) : s.head? = some 'z' := by
  unfold zonePat1 at h
  cases hl : litP ("zone".toList) s with
  | none => rw [hl] at h; simp at h
  | some r => exact litP_head (show litP ('z' :: "one".toList) s = some r from hl)

theorem nextZonePat_head {code : Str} {prev : Option Char} {s : Str}
    (h : (nextZonePat code prev s).isSome = true) : s.head? = some 'z' := by
  unfold nextZonePat at h
  split at h
  · simp at h
  · cases hl : litP ("zone".toList) s with
    | none => rw [hl] at h; simp at h
    | some r =>
      exact litP_head (show litP ('z' :: "one".toList) s = some r from hl)

theorem zonePat2_head {c : Char} {lit : Str} {prev : Option Char} {s : Str}
    (h : (zonePat2 (c :: lit) prev s).isSome = true) : s.head? = some c := by
  unfold zonePat2 at h
  split at h
  · simp at h
  · cases hl : litP (c :: lit) s with
    | none => rw [hl] at h; simp at h
    | some r => exact litP_head hl

theorem zonePat3_head {c : Char} {lit : Str} {prev : Option Char} {s : Str}
    (h : (zonePat3 (c :: lit) prev s).isSome = true) : s.head? = some c := by
  unfold zonePat3 at h
  split at h
  · simp at h
  · cases hl : litP (c :: lit) s with
    | none => rw [hl] at h; simp at h
    | some r => exact litP_head hl

/-- A matcher that can only fire on a fixed head character never matches in
a text that does not contain that character. -/
theorem findAtFrom_none_of_head {m : Option Char → Str → Option Nat}
    {c0 : Char}
    (hm : ∀ prev s', (m prev s').isSome = true → s'.head? = some c0) :
    ∀ (prev : Option Char) (i : Nat) (s : Str), c0 ∉ s →
      findAtFrom m prev i s = none := by
  intro prev i s
  induction s generalizing prev i with
  | nil =>
    intro _
    simp only [findAtFrom]
    rw [if_neg]
    intro hsome
    have := hm prev [] hsome
    simp at this
  | cons c rest ih =>
    intro hmem
    simp only [findAtFrom]
    rw [if_neg]
    · exact ih (some c) (i + 1) (fun hc => hmem (List.mem_cons_of_mem _ hc))
    · intro hsome
      have := hm prev (c :: rest) hsome
      simp only [List.head?_cons, Option.some.injEq] at this
      exact hmem (this ▸ List.mem_cons_self _ _)

/-- A matcher succeeding at the current position stops the scan there. -/
theorem findAtFrom_here {m : Option Char → Str → Option Nat}
    {prev : Option Char} {i : Nat} {s : Str}
    (h : (m prev s).isSome = true) : findAtFrom m prev i s = some i := by
  cases s <;> simp [findAtFrom, h]

/-- The concrete text of the C6 counterexample: an article-6 heading at
index 0, followed by 4200 further characters of zone text (so the heading
window truncation is observable), for a zone code that never occurs. -/
def cexText6 : Str := "article 6 ".toList ++ List.replicate 4200 'a'

theorem cexText6_length : cexText6.length = 4210 := by
  show ("article 6 ".toList ++ List.replicate 4200 'a').length = 4210
  rw [List.length_append, List.length_replicate]
  decide

theorem cexText6_no_z : 'z' ∉ cexText6 := by
  intro h
  rcases List.mem_append.mp h with h1 | h1
  · exact absurd h1 (by decide)
  · exact absurd (List.eq_of_mem_replicate h1) (by decide)

theorem cexText6_no_u : 'u' ∉ cexText6 := by
  intro h
  rcases List.mem_append.mp h with h1 | h1
  · exact absurd h1 (by decide)
  · exact absurd (List.eq_of_mem_replicate h1) (by decide)

theorem cexText6_lower : jsToLower cexText6 = cexText6 := by
  show (("article 6 ".toList ++ List.replicate 4200 'a').map jsToLowerChar) = _
  rw [List.map_append, List.map_replicate,
    show jsToLowerChar 'a' = 'a' from rfl,
    show ("article 6 ".toList).map jsToLowerChar = ("article 6 ".toList) from
      by decide]
  rfl

theorem cexText6_zoneStart :
    zoneStartIdx cexText6 ("ug".toList) = 0 := by
  unfold zoneStartIdx
  rw [show findMatchIdx (zonePat1 ("ug".toList)) cexText6 = none from
      findAtFrom_none_of_head (fun prev s' h => zonePat1_head h) none 0 _
        cexText6_no_z,
    show findMatchIdx (zonePat2 ("ug".toList)) cexText6 = none from
      findAtFrom_none_of_head
        (fun prev s' h =>
          zonePat2_head (show (zonePat2 ('u' :: "g".toList) prev s').isSome =
            true from h)) none 0 _ cexText6_no_u,
    show findMatchIdx (zonePat3 ("ug".toList)) cexText6 = none from
      findAtFrom_none_of_head
        (fun prev s' h =>
          zonePat3_head (show (zonePat3 ('u' :: "g".toList) prev s').isSome =
            true from h)) none 0 _ cexText6_no_u]

theorem cexText6_scanFrom (other : Str) (st : Nat) :
    findMatchIdxFrom (nextZonePat (jsToLower other)) st cexText6 = none := by
  unfold findMatchIdxFrom
  split
  · rfl
  · exact findAtFrom_none_of_head (fun prev s' h => nextZonePat_head h) _ _ _
      (fun hz => cexText6_no_z (List.mem_of_mem_drop hz))

theorem cexText6_zoneEnd :
    nextZoneEnd cexText6 ("ug".toList) 0 = 4210 := by
  rw [show (4210 : Nat) = cexText6.length from cexText6_length.symm]
  simp only [nextZoneEnd, allZoneCodes, List.foldl_cons, List.foldl_nil,
    cexText6_scanFrom, ite_self]

theorem cexText6_span : zoneSpan cexText6 ("ug".toList) = cexText6 := by
  simp only [zoneSpan]
  rw [show jsToLower ("ug".toList) = ("ug".toList) from by decide,
    cexText6_lower, cexText6_zoneStart, cexText6_zoneEnd]
  show (cexText6.take 4210).drop 0 = cexText6
  rw [List.drop_zero, List.take_of_length_le (le_of_eq cexText6_length)]

theorem buildZoneExcerpts_art6 (text zone : Str) :
    (buildZoneExcerpts text zone).extrait_article_6 =
      (findArticleExcerpt text ("6".toList) zone 4000).take 6000 := rfl

theorem buildZoneExcerpts_art7 (text zone : Str) :
    (buildZoneExcerpts text zone).extrait_article_7 =
      (findArticleExcerpt text ("7".toList) zone 4000).take 6000 := rfl

theorem buildZoneExcerpts_art12 (text zone : Str) :
    (buildZoneExcerpts text zone).extrait_article_12 =
      (findArticleExcerpt text ("12".toList) zone 4000).take 6000 := rfl

theorem buildZoneExcerpts_art10 (text zone : Str) :
    (buildZoneExcerpts text zone).extrait_article_10 =
      (findArticleExcerpt text ("10".toList) zone 3000).take 4000 := rfl

theorem buildZoneExcerpts_art9 (text zone : Str) :
    (buildZoneExcerpts text zone).extrait_article_9 =
      (findArticleExcerpt text ("9".toList) zone 3000).take 4000 := rfl

theorem buildZoneExcerpts_fallback (text zone : Str) :
    (buildZoneExcerpts text zone).fallback_context =
      (match findMatchIdx (zonePat1 (jsToLower zone)) (jsToLower text) with
        | some i => jsSlice text (i - 500) (min text.length (i + 6000))
        | none => ([] : Str)).take 4000 := rfl

theorem cexText6_art1_isSome :
    (artPat1 ("6".toList) none cexText6).isSome = true := by
  have st1 : litP ("article".toList) cexText6 =
      some (" 6 ".toList ++ List.replicate 4200 'a') := rfl
  have st2 : wsPlus (" 6 ".toList ++ List.replicate 4200 'a') =
      some ("6 ".toList ++ List.replicate 4200 'a') := rfl
  have st3 : litP ("6".toList) ("6 ".toList ++ List.replicate 4200 'a') =
      some (" ".toList ++ List.replicate 4200 'a') := rfl
  have hlen2 : (" ".toList ++ List.replicate 4200 'a').length = 4201 := by
    rw [List.length_append, List.length_replicate]
    decide
  have st4 : lastConsumed cexText6 (" ".toList ++ List.replicate 4200 'a') =
      some '6' := by
    unfold lastConsumed
    rw [cexText6_length, hlen2]
    show (cexText6.take 9).getLast? = some '6'
    rw [show cexText6.take 9 =
        ("article 6 ".toList).take 9 from
      List.take_append_of_le_length (by decide)]
    decide
  simp only [artPat1, st1, st2, st3, Option.some_bind, st4,
    show (" ".toList ++ List.replicate 4200 'a').head? = some ' ' from rfl]
  decide

theorem cexText6_articleIdx :
    articleIdx cexText6 ("6".toList) = some 0 := by
  unfold articleIdx
  rw [show findMatchIdx (artPat1 ("6".toList)) cexText6 = some 0 from
    findAtFrom_here cexText6_art1_isSome]

set_option maxRecDepth 8000 in
/-- C6 counterexample: in a document whose article-6 heading sits at index
0 of a 4210-character zone span (zone code "ug", absent from the text), the
produced excerpt has length 4000 — the window extends only 4000 characters
after the heading, while the window the claim describes (up to 6000 after
the heading, clamped to the span) would have length 4210; the two disagree
at this concrete input. -/
theorem C6_counterexample :
    articleIdx (jsToLower (zoneSpan cexText6 ("ug".toList))) ("6".toList) =
      some 0 ∧
    (buildZoneExcerpts cexText6 ("ug".toList)).extrait_article_6.length =
      4000 ∧
    (jsSlice (zoneSpan cexText6 ("ug".toList)) (0 - 200)
      (min (zoneSpan cexText6 ("ug".toList)).length (0 + 6000))).length =
      4210 ∧
    (buildZoneExcerpts cexText6 ("ug".toList)).extrait_article_6 ≠
      jsSlice (zoneSpan cexText6 ("ug".toList)) (0 - 200)
        (min (zoneSpan cexText6 ("ug".toList)).length (0 + 6000)) := by
  have hidx : articleIdx (jsToLower (zoneSpan cexText6 ("ug".toList)))
      ("6".toList) = some 0 := by
    rw [cexText6_span, cexText6_lower, cexText6_articleIdx]
  have hfa : findArticleExcerpt cexText6 ("6".toList) ("ug".toList) 4000 =
      excerptAt cexText6 0 4000 := by
    simp only [findArticleExcerpt]
    rw [cexText6_span, cexText6_lower, cexText6_articleIdx]
  have hlen1 : (buildZoneExcerpts cexText6
      ("ug".toList)).extrait_article_6.length = 4000 := by
    rw [buildZoneExcerpts_art6, hfa]
    unfold excerptAt
    rw [List.length_take, jsSlice_length, cexText6_length]
    omega
  have hlen2 : (jsSlice (zoneSpan cexText6 ("ug".toList)) (0 - 200)
      (min (zoneSpan cexText6 ("ug".toList)).length (0 + 6000))).length =
      4210 := by
    rw [cexText6_span, jsSlice_length, cexText6_length]
    omega
  refine ⟨hidx, hlen1, hlen2, ?_⟩
  intro he
  have := congrArg List.length he
  rw [hlen1, hlen2] at this
  exact absurd this (by norm_num)

/-! ### Zone discovery (src/index.js lines 249-299)

The eight patterns are scanned with `while (pattern.exec(text))`, advancing
past each match; captures are collected into an insertion-ordered set.  The
first two patterns are case-sensitive and run on the raw text; the others
carry the `i` flag, modelled by scanning the lowercased text (captures are
sliced from the original text and uppercased afterwards, so their case does
not matter). -/

def upAZ (c : Char) : Bool := 65 ≤ c.toNat && c.toNat ≤ 90

def lowAZ (c : Char) : Bool := 97 ≤ c.toNat && c.toNat ≤ 122

def digit19 (c : Char) : Bool := 49 ≤ c.toNat && c.toNat ≤ 57

/-- Core of `U[A-Z]{1,2}[a-z]?` with its trailing `\b`, with the greedy
attempt order (two capitals + optional lowercase, two capitals, one capital
+ optional lowercase, one capital); returns the capture length. -/
def uZoneCore (uChar : Char) (upper lower : Char → Bool) : Str → Option Nat
  | c :: c1 :: rest =>
    if c = uChar ∧ upper c1 then
      match rest with
      | c2 :: rest2 =>
        if upper c2 then
          match rest2 with
          | c3 :: rest3 =>
            if lower c3 && bdry (some c3) rest3.head? then some 4
            else if bdry (some c2) rest2.head? then some 3
            else none
          | [] => some 3
        else
          if lower c2 && bdry (some c2) rest2.head? then some 3
          else if bdry (some c1) rest.head? then some 2
          else none
      | [] => some 2
    else none
  | _ => none

/-- Core of `[1-9]AU[a-z]?\b` (the `AU` letters given as parameters so the
same core serves the case-sensitive and the lowercased scans). -/
def auZoneCore (aChar uChar : Char) (lower : Char → Bool) : Str → Option Nat
  | c0 :: c1 :: c2 :: rest =>
    if digit19 c0 ∧ c1 = aChar ∧ c2 = uChar then
      match rest with
      | c3 :: rest3 =>
        if lower c3 && bdry (some c3) rest3.head? then some 4
        else if bdry (some c2) rest.head? then some 3
        else none
      | [] => some 3
    else none
  | _ => none

/-- Core of `(A[a-z]?)\b` / `(N[a-z]?)\b` for a given head letter. -/
def anZoneCore (hd : Char) (lower : Char → Bool) : Str → Option Nat
  | c0 :: rest =>
    if c0 = hd then
      match rest with
      | c1 :: rest1 =>
        if lower c1 && bdry (some c1) rest1.head? then some 2
        else if bdry (some c0) rest.head? then some 1
        else none
      | [] => some 1
    else none
  | _ => none

/-- A discovery matcher returns (capture offset, capture length, match
length) at a position. -/
abbrev DiscM := Option Char → Str → Option (Nat × Nat × Nat)

/-- `\b(U[A-Z]{1,2}[a-z]?)\b` (case-sensitive). -/
def discP1 : DiscM := fun prev s =>
  if bdry prev s.head? = false then none
  else (uZoneCore 'U' upAZ lowAZ s).map fun len => (0, len, len)

/-- `\b([1-9]AU[a-z]?)\b` (case-sensitive). -/
def discP2 : DiscM := fun prev s =>
  if bdry prev s.head? = false then none
  else (auZoneCore 'A' 'U' lowAZ s).map fun len => (0, len, len)

/-- The `ZONE\s+` prefix of patterns 3-6, on lowercased text. -/
def zonePrefix (core : Str → Option Nat) : DiscM := fun prev s =>
  if bdry prev s.head? = false then none
  else
    (litP ("zone".toList) s).bind fun r1 =>
    (wsPlus r1).bind fun r2 =>
    (core r2).map fun clen =>
      (s.length - r2.length, clen, s.length - r2.length + clen)

/-- `\bZONE\s+(U[A-Z]{1,2}[a-z]?)\b` with `i`: on lowercased text both
letter classes collapse to lowercase letters. -/
def discP3 : DiscM := zonePrefix (uZoneCore 'u' lowAZ lowAZ)

/-- `\bZONE\s+([1-9]AU[a-z]?)\b` with `i`. -/
def discP4 : DiscM := zonePrefix (auZoneCore 'a' 'u' lowAZ)

/-- `\bZONE\s+(A[a-z]?)\b` with `i`. -/
def discP5 : DiscM := zonePrefix (anZoneCore 'a' lowAZ)

/-- `\bZONE\s+(N[a-z]?)\b` with `i`. -/
def discP6 : DiscM := zonePrefix (anZoneCore 'n' lowAZ)

/-- `\b(A)\s+[-–]\s+Zone\s+agricole` / `...naturelle` with `i`, on
lowercased text. -/
def dashZonePat (hd : Char) (word : Str) : DiscM := fun prev s =>
  if bdry prev s.head? = false then none
  else
    match s with
    | c0 :: r0 =>
      if c0 = hd then
        (wsPlus r0).bind fun r1 =>
        (match r1 with
          | c :: r2 =>
            if c = '-' ∨ c.toNat = 0x2013 then some r2 else none
          | [] => none).bind fun r2 =>
        (wsPlus r2).bind fun r3 =>
        (litP ("zone".toList) r3).bind fun r4 =>
        (wsPlus r4).bind fun r5 =>
        (litP word r5).map fun (r6 : Str) => (0, 1, s.length - r6.length)
      else none
    | [] => none

def discP7 : DiscM := dashZonePat 'a' ("agricole".toList)

def discP8 : DiscM := dashZonePat 'n' ("naturelle".toList)

/-- All matches of one discovery pattern: captures in scan order, advancing
past each match (`lastIndex` mechanics). -/
def scanCapsAux (m : DiscM) (orig : Str) :
    Nat → Option Char → Nat → Str → List Str
  | 0, _, _, _ => []
  | _ + 1, _, _, [] => []
  | fuel + 1, prev, i, c :: rest =>
    match m prev (c :: rest) with
    | some (capOff, capLen, matchLen) =>
      let adv := max 1 matchLen
      ((orig.drop (i + capOff)).take capLen) ::
        scanCapsAux m orig fuel ((c :: rest).get? (adv - 1)) (i + adv)
          ((c :: rest).drop adv)
    | none => scanCapsAux m orig fuel (some c) (i + 1) rest

def scanCaps (m : DiscM) (orig scanText : Str) : List Str :=
  scanCapsAux m orig (scanText.length + 1) none 0 scanText

/-- Insertion-ordered set insert (JS `Set.prototype.add`). -/
def insertUnique (l : List Str) (x : Str) : List Str :=
  if x ∈ l then l else l ++ [x]

/-- The post-capture filter `^U[A-Z]{1,2}[A-Z]?$ | ^[1-9]AU[A-Z]?$ |
(^(A|N)[A-Z]?$ and length ≤ 2)` of `discoverZonesRegex`. -/
def isValidZone (z : Str) : Bool :=
  (match z with
   | 'U' :: rest =>
     rest.all upAZ && decide (1 ≤ rest.length) && decide (rest.length ≤ 3)
   | _ => false) ||
  (match z with
   | c0 :: 'A' :: 'U' :: rest =>
     digit19 c0 &&
     (match rest with
      | [] => true
      | [c] => upAZ c
      | _ => false)
   | _ => false) ||
  (match z with
   | c0 :: rest =>
     (c0 == 'A' || c0 == 'N') &&
     (match rest with
      | [] => true
      | [c] => upAZ c
      | _ => false) &&
     decide (z.length ≤ 2)
   | [] => false)

/-- `discoverZonesRegex` from src/index.js (lines 249-282). -/
def discoverZonesRegex (text : Str) : List Str :=
  let lower := jsToLower text
  let caps :=
    scanCaps discP1 text text ++ scanCaps discP2 text text ++
    scanCaps discP3 text lower ++ scanCaps discP4 text lower ++
    scanCaps discP5 text lower ++ scanCaps discP6 text lower ++
    scanCaps discP7 text lower ++ scanCaps discP8 text lower
  let found := caps.foldl
    (fun acc cap =>
      let code := (jsToUpper cap).filter (fun c => !isJsWs c)
      if 1 ≤ code.length ∧ code.length ≤ 5 then insertUnique acc code
      else acc) []
  (found.filter isValidZone).take 15

example :
    discoverZonesRegex ("ZONE UA xxx ZONE UB".toList) =
      ["UA".toList, "UB".toList] := by
  decide

example : discoverZonesRegex (List.replicate 30 'x') = [] := by decide

/-! ### Document metadata extractor (src/index.js lines 284-299)

The four version-label patterns carry the `i` flag; they are scanned on the
lowercased text and `match[0]` is sliced from the original text.  The
accented character classes `[A-ZÀ-Ÿ]` / `[a-zà-ÿ]` under `i` are modelled
on the lowercased text as lowercase ASCII letters plus the Latin-1/Latin-A
accented block; none of the properties proved below depends on the exact
extent of these classes. -/

def frUpperCI (c : Char) : Bool :=
  lowAZ c || (0xC0 ≤ c.toNat && c.toNat ≤ 0x178)

def frLowerCI (c : Char) : Bool :=
  lowAZ c || (0xE0 ≤ c.toNat && c.toNat ≤ 0xFF)

/-- `20\d{2}`. -/
def yearTok : Str → Option Str
  | '2' :: '0' :: d1 :: d2 :: r =>
    if isDigitC d1 && isDigitC d2 then some r else none
  | _ => none

/-- A greedy optional `[-–]`. -/
def dashOpt : Str → Str
  | [] => []
  | c :: r => if c = '-' ∨ c.toNat = 0x2013 then r else c :: r

/-- One accented word `[A-ZÀ-Ÿ][a-zà-ÿ]+` (ci). -/
def frWord (s : Str) : Option Str :=
  match s with
  | c :: r =>
    if frUpperCI c then
      let w := r.takeWhile frLowerCI
      if w = [] then none else some (r.drop w.length)
    else none
  | [] => none

/-- `/PLU\s+(?:de\s+)?([A-ZÀ-Ÿ][a-zà-ÿ]+(?:\s+[A-ZÀ-Ÿ][a-zà-ÿ]+)?)\s*[-–]?\s*(20\d{2})/i` -/
def verPat1 (s : Str) : Option Nat :=
  (litP ("plu".toList) s).bind fun r1 =>
  (wsPlus r1).bind fun r2 =>
  (frWord (optDeWs r2)).bind fun r3 =>
  tryAlts
    (fun r4 =>
      (yearTok (wsStar (dashOpt (wsStar r4)))).bind fun r5 =>
      some (s.length - r5.length))
    [fun r => (wsPlus r).bind frWord, fun r => some r] r3

/-- `/(?:approuvé|approbation)\s+(?:le\s+)?(\d{1,2}\s+\w+\s+)?(20\d{2})/i` -/
def verPat2 (s : Str) : Option Nat :=
  (match litP ("approuvé".toList) s with
    | some r => some r
    | none => litP ("approbation".toList) s).bind fun r1 =>
  (wsPlus r1).bind fun r2 =>
  let r3 :=
    match (litP ("le".toList) r2).bind wsPlus with
    | some r => r
    | none => r2
  let innerTail : Str → Option Str := fun rest =>
    (wsPlus rest).bind fun a =>
    let w := a.takeWhile isWordChar
    if w = [] then none else wsPlus (a.drop w.length)
  tryAlts
    (fun r4 => (yearTok r4).bind fun r5 => some (s.length - r5.length))
    [fun r =>
      match r with
      | d1 :: d2 :: rest =>
        if isDigitC d1 && isDigitC d2 then innerTail rest else none
      | _ => none,
     fun r =>
      match r with
      | d1 :: rest => if isDigitC d1 then innerTail rest else none
      | [] => none,
     fun r => some r] r3

/-- `/PLU\s+(20\d{2})/i` -/
def verPat3 (s : Str) : Option Nat :=
  (litP ("plu".toList) s).bind fun r1 =>
  (wsPlus r1).bind fun r2 =>
  (yearTok r2).bind fun r3 =>
  some (s.length - r3.length)

/-- Backtracking `\d+` followed by a continuation. -/
def tryDigitsDown (k : Str → Option Nat) (s : Str) : Nat → Option Nat
  | 0 => none
  | n + 1 =>
    match k (s.drop (n + 1)) with
    | some v => some v
    | none => tryDigitsDown k s n

/-- `/révision\s+n°?\s*\d+\s*[-–]?\s*(20\d{2})/i` -/
def verPat4 (s : Str) : Option Nat :=
  (litP ("révision".toList) s).bind fun r1 =>
  (wsPlus r1).bind fun r2 =>
  (litP (['n']) r2).bind fun r3 =>
  let r4 := wsStar (optCharP '°' r3)
  let ds := r4.takeWhile isDigitC
  if ds = [] then none
  else
    tryDigitsDown
      (fun r5 =>
        (yearTok (wsStar (dashOpt (wsStar r5)))).bind fun r6 =>
        some (s.length - r6.length))
      r4 ds.length

/-- `extractPluVersionLabel` from src/index.js (lines 284-299). -/
def extractPluVersionLabel (text : Str) : Option Str :=
  let lower := jsToLower text
  let run := fun (p : Str → Option Nat) =>
    match findFirstLen p lower with
    | some (i, len) => some ((text.drop i).take len)
    | none => none
  match run verPat1 with
  | some m0 => cleanNoteWith 100 (some m0)
  | none =>
    match run verPat2 with
    | some m0 => cleanNoteWith 100 (some m0)
    | none =>
      match run verPat3 with
      | some m0 => cleanNoteWith 100 (some m0)
      | none =>
        match run verPat4 with
        | some m0 => cleanNoteWith 100 (some m0)
        | none => none

example :
    extractPluVersionLabel ("PLU Paris - 2019 xx".toList) =
      some ("PLU Paris - 2019".toList) := by
  decide

example :
    (extractPluVersionLabel ("approuvé le 12 mars 2020".toList)).isSome =
      true := by
  decide

example : extractPluVersionLabel ("xxyyzz 123".toList) = none := by decide

/-! ### Pipeline orchestration (src/index.js lines 620-852)

The endpoint handler is modelled as a pure function of the request data
and of oracles standing for its external collaborators: the PDF fetch, the
PDF-to-text decoding, the discovery extraction call and the per-zone
extraction call.  An `Except.error` oracle result models a throw (or, for
the per-zone call, also an unparsable response, since `JSON.parse` then
throws inside the `try`).  The effect list records which external
operations were started, in order. -/

/-- `normalizeZoneCode` from src/index.js (lines 47-53). -/
def normalizeZoneCode (code : Option Str) : Option Str :=
  match code with
  | some (c :: rest) =>
    let normalized := jsToUpper (jsTrim (c :: rest))
    let stripped :=
      match (litP ("ZONE".toList) normalized).bind wsPlus with
      | some r => r
      | none => normalized
    if stripped = [] then none else some stripped
  | _ => none

example : normalizeZoneCode (some ("  ug ".toList)) = some ("UG".toList) := by
  decide

example : normalizeZoneCode (some ("Zone ua".toList)) = some ("UA".toList) := by
  decide

example : normalizeZoneCode (some ("".toList)) = none := by decide

structure ZoneInfo where
  zone_code : Str
  zone_libelle : Option Str
deriving DecidableEq

structure Discovery where
  plu_version_label : Option Str
  zones : List ZoneInfo
deriving DecidableEq

structure RespMeta where
  zones_detected : Nat
  zones_processed : Nat
  used_discovery : String
  target_zone_mode : Bool
  target_zone_code : Option Str
  target_zone_found_in_discovery : Bool
  warnings : List Str
deriving DecidableEq

def initMeta : RespMeta :=
  { zones_detected := 0
    zones_processed := 0
    used_discovery := "regex"
    target_zone_mode := false
    target_zone_code := none
    target_zone_found_in_discovery := false
    warnings := [] }

structure ZoneEntry where
  zone_code : Str
  zone_libelle : Option Str
  ruleset : ZoneRuleset
deriving DecidableEq

structure PluResponse where
  status : Nat
  success : Bool
  error : Option String
  message : Option Str
  commune_insee : Option Str
  commune_nom : Option Str
  plu_version_label : Option Str
  source_document : Option Str
  zones_rulesets : Option (List ZoneEntry)
  meta : Option RespMeta
deriving DecidableEq

/-- JS `a || null` on a nullable string. -/
def jsStrOrNull (a : Option Str) : Option Str :=
  if strTruthy a then a else none

/-- The fully-null placeholder ruleset pushed for a failed zone
(src/index.js lines 807-824). -/
def failedRuleset (zone_code : Str) (zone_libelle : Option Str) :
    ZoneRuleset :=
  { zone_code := zone_code
    zone_libelle := jsStrOrNull zone_libelle
    reculs :=
      { voirie := ⟨none, none, some ("LLM_FAILED".toList)⟩
        limites_separatives := ⟨none, none, some ("LLM_FAILED".toList)⟩
        fond_parcelle := ⟨none, none, some ("LLM_FAILED".toList)⟩
        implantation_en_limite := ⟨none, some ("LLM_FAILED".toList)⟩ }
    stationnement := ⟨none, none, none, some ("LLM_FAILED".toList)⟩
    hauteur := ⟨none, some ("LLM_FAILED".toList)⟩
    emprise_sol := ⟨none, some ("LLM_FAILED".toList)⟩
    articles_source := [] }

/-- Decimal rendering of a natural number, for warning messages built with
template literals. -/
def natToStrAux : Nat → Nat → Str → Str
  | 0, _, acc => acc
  | fuel + 1, n, acc =>
    let d := Char.ofNat (48 + n % 10)
    if n < 10 then d :: acc else natToStrAux fuel (n / 10) (d :: acc)

def natToStr (n : Nat) : Str := natToStrAux (n + 1) n []

example : natToStr 13 = "13".toList := by decide

/-- The per-zone extraction oracle: zone code, libelle, excerpts ↦ either a
raw response value or a throw/unparsable response. -/
abbrev ZoneOracle := Str → Option Str → ZoneExcerpts → Except Unit JSRaw

/-- One iteration of the zone loop (src/index.js lines 770-826): excerpt
building, the external call, post-processing; any throw inside the `try` is
replaced by the failed placeholder plus a warning. -/
def processOneZone (oracle : ZoneOracle) (fullText : Str) (zi : ZoneInfo) :
    ZoneEntry × Option Str :=
  let excerpts := buildZoneExcerpts fullText zi.zone_code
  let failed : ZoneEntry × Option Str :=
    (⟨zi.zone_code, jsStrOrNull zi.zone_libelle,
        failedRuleset zi.zone_code zi.zone_libelle⟩,
      some (("ZONE_".toList) ++ zi.zone_code ++ ("_LLM_FAILED".toList)))
  match oracle zi.zone_code zi.zone_libelle excerpts with
  | .error _ => failed
  | .ok raw =>
    match postProcessZoneRuleset raw zi.zone_code zi.zone_libelle with
    | .error _ => failed
    | .ok ruleset =>
      (⟨zi.zone_code, ruleset.zone_libelle, ruleset⟩, none)

/-- The zone loop: entries in selection order, the warnings pushed by
failing zones in the same order, and `meta.zones_processed`. -/
def processZones (oracle : ZoneOracle) (fullText : Str) :
    List ZoneInfo → List ZoneEntry × List Str × Nat
  | [] => ([], [], 0)
  | zi :: rest =>
    let r := processOneZone oracle fullText zi
    let t := processZones oracle fullText rest
    match r.2 with
    | some w => (r.1 :: t.1, w :: t.2.1, t.2.2)
    | none => (r.1 :: t.1, t.2.1, t.2.2 + 1)

/-- The top-level success flag (src/index.js lines 831-833):
`zones_rulesets.some(z => z.ruleset && !z.ruleset.reculs?.voirie?.note?.includes("LLM_FAILED"))`;
a null note makes the optional chain undefined, whose negation is `true`. -/
def entryOk (e : ZoneEntry) : Bool :=
  match e.ruleset.reculs.voirie.note with
  | none => true
  | some n => !strIncludes ("LLM_FAILED".toList) n

/-- External operations the endpoint may start, in order of initiation. -/
inductive Effect where
  | pdfFetch
  | pdfDecode
  | llmDiscovery
  | llmZone (code : Str) (libelle : Option Str) (excerpts : ZoneExcerpts)
deriving DecidableEq

/-- Steps 4-7 of the endpoint (discovery, target selection, the zone loop
and the final response), given the normalized document text; the second
component lists the external LLM calls started, in order. -/
def pluParse (fullText : Str) (rawTarget : Option Str)
    (communeInsee communeNom sourceUrl : Option Str)
    (discOracle : Except Unit Discovery) (zoneOracle : ZoneOracle) :
    PluResponse × List Effect :=
  if fullText = [] ∨ fullText.length < 100 then
    ({ status := 400, success := false, error := some "PDF_EMPTY_OR_UNREADABLE"
       message := none, commune_insee := none, commune_nom := none
       plu_version_label := none, source_document := none
       zones_rulesets := none, meta := none }, [])
  else
    let targetZoneCode := normalizeZoneCode rawTarget
    let isTarget := targetZoneCode.isSome
    let label0 := extractPluVersionLabel fullText
    let regexZones := discoverZonesRegex fullText
    let disc :
        List ZoneInfo × Option Str × String × List Str :=
      if regexZones ≠ [] then
        (regexZones.map (fun code => ⟨code, none⟩), label0, "regex", [])
      else
        match discOracle with
        | .ok d =>
          let zones := d.zones.take 15
          let label :=
            if strTruthy label0 then label0
            else jsStrOrNull d.plu_version_label
          (zones, label, "llm", [])
        | .error _ => ([], label0, "regex", [("LLM_DISCOVERY_FAILED".toList)])
    let discoveredZones := disc.1
    let label := disc.2.1
    let usedDiscovery := disc.2.2.1
    let warns0 := disc.2.2.2
    let discEff : List Effect :=
      if regexZones ≠ [] then [] else [Effect.llmDiscovery]
    let meta1 : RespMeta :=
      { initMeta with
        target_zone_mode := isTarget
        target_zone_code := targetZoneCode
        used_discovery := usedDiscovery
        zones_detected := discoveredZones.length }
    if hTarget : targetZoneCode.isSome then
      let tcode := targetZoneCode.get hTarget
      let foundInDiscovery := discoveredZones.find?
        (fun z => normalizeZoneCode (some z.zone_code) = targetZoneCode)
      let sel : List ZoneInfo × Bool × List Str :=
        match foundInDiscovery with
        | some zi => ([zi], true, warns0)
        | none =>
          ([⟨tcode, none⟩], false,
            warns0 ++ [("TARGET_ZONE_NOT_IN_DISCOVERY: ".toList) ++ tcode])
      let pr := processZones zoneOracle fullText sel.1
      let warnings := sel.2.2 ++ pr.2.1
      ({ status := 200
         success := pr.1.any entryOk
         error := none, message := none
         commune_insee := communeInsee, commune_nom := jsStrOrNull communeNom
         plu_version_label := label, source_document := sourceUrl
         zones_rulesets := some pr.1
         meta := some { meta1 with
           target_zone_found_in_discovery := sel.2.1
           zones_processed := pr.2.2
           warnings := warnings } },
        discEff ++ sel.1.map (fun z => Effect.llmZone z.zone_code
          z.zone_libelle (buildZoneExcerpts fullText z.zone_code)))
    else
      if discoveredZones = [] then
        ({ status := 200, success := false, error := some "NO_ZONES_FOUND"
           message := none
           commune_insee := communeInsee, commune_nom := jsStrOrNull communeNom
           plu_version_label := label, source_document := sourceUrl
           zones_rulesets := some []
           meta := some { meta1 with warnings := warns0 } }, discEff)
      else
        let warns1 :=
          if 12 < discoveredZones.length then
            warns0 ++ [("ZONES_TRUNCATED: ".toList)
              ++ natToStr discoveredZones.length
              ++ (" detected, processing first 12".toList)]
          else warns0
        let zonesToProcess :=
          if 12 < discoveredZones.length then discoveredZones.take 12
          else discoveredZones
        let pr := processZones zoneOracle fullText zonesToProcess
        let warnings := warns1 ++ pr.2.1
        ({ status := 200
           success := pr.1.any entryOk
           error := none, message := none
           commune_insee := communeInsee, commune_nom := jsStrOrNull communeNom
           plu_version_label := label, source_document := sourceUrl
           zones_rulesets := some pr.1
           meta := some { meta1 with
             zones_processed := pr.2.2
             warnings := warnings } },
          discEff ++ zonesToProcess.map (fun z => Effect.llmZone z.zone_code
            z.zone_libelle (buildZoneExcerpts fullText z.zone_code)))

/-- Relevant fields of the request (headers and JSON body). -/
structure PluRequest where
  authorization : Option Str
  commune_insee : Option Str
  commune_nom : Option Str
  source_pdf_url : Option Str
  target_zone_code : Option Str
deriving DecidableEq

/-- A response carrying only `success` and `error`, as produced by the
early-return branches of the endpoint. -/
def bareError (status : Nat) (err : String) (msg : Option Str) :
    PluResponse :=
  { status := status, success := false, error := some err
    message := msg, commune_insee := none, commune_nom := none
    plu_version_label := none, source_document := none
    zones_rulesets := none, meta := none }

/-- The endpoint handler (src/index.js lines 620-852): auth, parameter
check, PDF fetch, text extraction, then `pluParse`.  The effect list
records which external operations were started, in order. -/
def handler (serverKey : Option Str) (req : PluRequest)
    (fetchOracle : Except Str Unit)
    (pdfOracle : Except Str (Option Str))
    (discOracle : Except Unit Discovery) (zoneOracle : ZoneOracle) :
    PluResponse × List Effect :=
  let authHeader := (req.authorization).getD []
  let token := jsTrim (replaceFirstStr ("Bearer ".toList) [] authHeader)
  if ¬ strTruthy serverKey ∨ serverKey ≠ some token then
    (bareError 401 "UNAUTHORIZED" none, [])
  else if ¬ strTruthy req.commune_insee ∨ ¬ strTruthy req.source_pdf_url then
    (bareError 400 "MISSING_PARAMS" none, [])
  else
    match fetchOracle with
    | .error msg => (bareError 502 "PDF_FETCH_ERROR" (some msg),
        [Effect.pdfFetch])
    | .ok _ =>
      match pdfOracle with
      | .error msg => (bareError 500 "PDF_PARSE_ERROR" (some msg),
          [Effect.pdfFetch, Effect.pdfDecode])
      | .ok t =>
        let fullText := normalizeText (t.getD [])
        let r := pluParse fullText req.target_zone_code req.commune_insee
          req.commune_nom req.source_pdf_url discOracle zoneOracle
        (r.1, Effect.pdfFetch :: Effect.pdfDecode :: r.2)

/-- Structure of the zone loop: one result entry per selected zone in
selection order, each computed from its own zone alone; the warning list
collects the per-zone failure warnings in the same order; the processed
counter counts the non-failing zones. -/
theorem processZones_eq (oracle : ZoneOracle) (fullText : Str)
    (zs : List ZoneInfo) :
    processZones oracle fullText zs =
      (zs.map (fun z => (processOneZone oracle fullText z).1),
        zs.filterMap (fun z => (processOneZone oracle fullText z).2),
        (zs.filter
          (fun z => (processOneZone oracle fullText z).2 = none)).length) := by
  induction zs with
  | nil => rfl
  | cons zi rest ih =>
    simp only [processZones, ih, List.map_cons, List.filterMap_cons,
      List.filter_cons]
    cases h : (processOneZone oracle fullText zi).2 with
    | none => simp [h]
    | some w => simp [h]

/-- A failing oracle call for a zone produces the placeholder entry and the
failure warning. -/
theorem processOneZone_fail (oracle : ZoneOracle) (fullText : Str)
    (zi : ZoneInfo)
    (hfail : oracle zi.zone_code zi.zone_libelle
      (buildZoneExcerpts fullText zi.zone_code) = .error ()) :
    processOneZone oracle fullText zi =
      (⟨zi.zone_code, jsStrOrNull zi.zone_libelle,
          failedRuleset zi.zone_code zi.zone_libelle⟩,
        some (("ZONE_".toList) ++ zi.zone_code ++ ("_LLM_FAILED".toList))) := by
  simp only [processOneZone, hfail]

/-- C4: per-zone isolation.  When the external extraction call fails for a
selected zone, the zone loop records the ZONE_<code>_LLM_FAILED warning and
appends the fully-null placeholder ruleset with the failure-sentinel notes
for that zone; the result list has exactly one entry per selected zone in
selection order, each entry a function of its own zone alone, so the
remaining zones are unaffected by the failure. -/
theorem C4_per_zone_isolation (oracle : ZoneOracle) (fullText : Str)
    (zs : List ZoneInfo) (zi : ZoneInfo) (hmem : zi ∈ zs)
    (hfail : oracle zi.zone_code zi.zone_libelle
      (buildZoneExcerpts fullText zi.zone_code) = .error ()) :
    processZones oracle fullText zs =
      (zs.map (fun z => (processOneZone oracle fullText z).1),
        zs.filterMap (fun z => (processOneZone oracle fullText z).2),
        (zs.filter
          (fun z => (processOneZone oracle fullText z).2 = none)).length)
    ∧ (("ZONE_".toList) ++ zi.zone_code ++ ("_LLM_FAILED".toList)) ∈
        (processZones oracle fullText zs).2.1
    ∧ (⟨zi.zone_code, jsStrOrNull zi.zone_libelle,
          failedRuleset zi.zone_code zi.zone_libelle⟩ : ZoneEntry) ∈
        (processZones oracle fullText zs).1 := by
  have hz := processOneZone_fail oracle fullText zi hfail
  refine ⟨processZones_eq _ _ _, ?_, ?_⟩
  · rw [processZones_eq]
    simp only [List.mem_filterMap]
    exact ⟨zi, hmem, by rw [hz]⟩
  · rw [processZones_eq]
    simp only [List.mem_map]
    exact ⟨zi, hmem, by rw [hz]⟩

def c4Zones : List ZoneInfo :=
  [⟨("UA".toList), none⟩, ⟨("UB".toList), none⟩, ⟨("UC".toList), none⟩]

/-- An all-absent raw response object. -/
def emptyRaw : RawRuleset :=
  { zone_code := none, zone_libelle := none, reculs := none
    stationnement := none, hauteur := none, emprise_sol := none
    articles_source := none }

/-- An oracle that fails exactly on zone UB. -/
def c4Oracle : ZoneOracle := fun code _ _ =>
  if code = ("UB".toList) then .error () else .ok (JSRaw.jsObj emptyRaw)

theorem C4_per_zone_isolation_witness :
    (⟨("UB".toList), none⟩ : ZoneInfo) ∈ c4Zones ∧
    c4Oracle ("UB".toList) none (buildZoneExcerpts [] ("UB".toList)) =
      .error () ∧
    ((("ZONE_UB_LLM_FAILED".toList)) ∈
        (processZones c4Oracle [] c4Zones).2.1
      ∧ (processZones c4Oracle [] c4Zones).1.length = 3) := by
  refine ⟨by decide, rfl, ?_, ?_⟩
  · exact (C4_per_zone_isolation c4Oracle [] c4Zones ⟨("UB".toList), none⟩
      (by decide) rfl).2.1
  · rw [(C4_per_zone_isolation c4Oracle [] c4Zones ⟨("UB".toList), none⟩
      (by decide) rfl).1]
    simp [c4Zones]

/-- C10: authentication fails closed.  Whenever the configured key is
absent or empty, or the request's bearer token differs from it, the
endpoint answers 401 UNAUTHORIZED and starts no external operation — no
PDF fetch, no discovery, no zone extraction — whatever the oracles would
have answered; in particular with no key configured every request is
rejected. -/
theorem C10_auth_fails_closed (serverKey : Option Str) (req : PluRequest)
    (fetchOracle : Except Str Unit) (pdfOracle : Except Str (Option Str))
    (discOracle : Except Unit Discovery) (zoneOracle : ZoneOracle)
    (h : ¬ strTruthy serverKey ∨
      serverKey ≠ some (jsTrim (replaceFirstStr ("Bearer ".toList) []
        ((req.authorization).getD [])))) :
    handler serverKey req fetchOracle pdfOracle discOracle zoneOracle =
      (bareError 401 "UNAUTHORIZED" none, []) := by
  simp only [handler]
  rw [if_pos h]

theorem C10_auth_fails_closed_witness :
    (¬ strTruthy (none : Option Str) ∨
      (none : Option Str) ≠ some (jsTrim (replaceFirstStr ("Bearer ".toList)
        [] (((none : Option Str)).getD [])))) ∧
    handler none ⟨none, none, none, none, none⟩ (.ok ()) (.ok none)
        (.ok ⟨none, []⟩) (fun _ _ _ => .ok JSRaw.jsNull) =
      (bareError 401 "UNAUTHORIZED" none, []) :=
  ⟨Or.inl (by decide),
    C10_auth_fails_closed none ⟨none, none, none, none, none⟩ (.ok ())
      (.ok none) (.ok ⟨none, []⟩) (fun _ _ _ => .ok JSRaw.jsNull)
      (Or.inl (by decide))⟩

/-- A 100-character document with no zone mentions. -/
def c7Text : Str := ("xxxxxxxxxxxxxxxxxxxxxxxxxxxxxxxxxxxxxxxxxxxxxxxxxxxxxxxxxxxxxxxxxxxxxxxxxxxxxxxxxxxxxxxxxxxxxxxxxxxx".toList)

set_option maxRecDepth 4000 in
/-- C7 counterexample: a standard-mode run on a 100-character document with
zero discovered zones terminates early with zones_rulesets empty and
status 200, but the top-level result has success false and the error field
NO_ZONES_FOUND set — it is a non-success result, contradicting the claimed
propagation policy that only fatal conditions return a non-success result. -/
theorem C7_counterexample :
    (pluParse c7Text none (some ("75056".toList)) none (some ("u".toList))
        (.ok ⟨none, []⟩) (fun _ _ _ => .ok JSRaw.jsNull)).1.status = 200 ∧
    (pluParse c7Text none (some ("75056".toList)) none (some ("u".toList))
        (.ok ⟨none, []⟩) (fun _ _ _ => .ok JSRaw.jsNull)).1.zones_rulesets =
      some [] ∧
    (pluParse c7Text none (some ("75056".toList)) none (some ("u".toList))
        (.ok ⟨none, []⟩) (fun _ _ _ => .ok JSRaw.jsNull)).1.success = false ∧
    (pluParse c7Text none (some ("75056".toList)) none (some ("u".toList))
        (.ok ⟨none, []⟩) (fun _ _ _ => .ok JSRaw.jsNull)).1.error =
      some "NO_ZONES_FOUND" := by
  decide

/-- C7: in standard mode, a run whose discovery yields zero zones (regex
discovery empty and, if the LLM discovery is consulted, its zone list empty
or the call failing) terminates early after discovery: status 200,
zones_rulesets present and empty, no zone extraction started — but the
result is a non-success result, with success false and the error field set
to NO_ZONES_FOUND. -/
theorem C7_no_zones_found (fullText : Str) (rawTarget cI cN sU : Option Str)
    (discOracle : Except Unit Discovery) (zoneOracle : ZoneOracle)
    (hLen : ¬ (fullText = [] ∨ fullText.length < 100))
    (hMode : normalizeZoneCode rawTarget = none)
    (hRegex : discoverZonesRegex fullText = [])
    (hLLM : ∀ d, discOracle = .ok d → d.zones.take 15 = []) :
    (pluParse fullText rawTarget cI cN sU discOracle zoneOracle).1.status =
      200 ∧
    (pluParse fullText rawTarget cI cN sU discOracle zoneOracle).1.success =
      false ∧
    (pluParse fullText rawTarget cI cN sU discOracle zoneOracle).1.error =
      some "NO_ZONES_FOUND" ∧
    (pluParse fullText rawTarget cI cN sU
        discOracle zoneOracle).1.zones_rulesets = some [] ∧
    (pluParse fullText rawTarget cI cN sU discOracle zoneOracle).2 =
      [Effect.llmDiscovery] := by
  cases discOracle with
  | error e =>
    simp only [pluParse, hMode, hRegex, if_neg hLen]
    simp
  | ok d =>
    have htake := hLLM d rfl
    simp only [pluParse, hMode, hRegex, htake, if_neg hLen]
    simp

set_option maxRecDepth 4000 in
theorem C7_no_zones_found_witness :
    (¬ (c7Text = [] ∨ c7Text.length < 100)) ∧
    normalizeZoneCode none = none ∧
    discoverZonesRegex c7Text = [] ∧
    ((pluParse c7Text none (some ("1".toList)) none (some ("u".toList))
        (.error ()) (fun _ _ _ => .ok JSRaw.jsNull)).1.error =
      some "NO_ZONES_FOUND" ∧
      (pluParse c7Text none (some ("1".toList)) none (some ("u".toList))
        (.error ()) (fun _ _ _ => .ok JSRaw.jsNull)).2 =
      [Effect.llmDiscovery]) := by
  refine ⟨by decide, rfl, by decide, ?_, ?_⟩
  · exact (C7_no_zones_found c7Text none (some ("1".toList)) none
      (some ("u".toList)) (.error ()) (fun _ _ _ => .ok JSRaw.jsNull)
      (by decide) rfl (by decide) (fun d h => by cases h)).2.2.1
  · exact (C7_no_zones_found c7Text none (some ("1".toList)) none
      (some ("u".toList)) (.error ()) (fun _ _ _ => .ok JSRaw.jsNull)
      (by decide) rfl (by decide) (fun d h => by cases h)).2.2.2.2

/-- A document mentioning zones UA and UB and an article 6 heading, with no
occurrence of the letters ug. -/
def c8Text : Str :=
  ("ZONE UA xxx article 6 : recul des voies xxxxxxxxxxxxxxxxxxxxxxxxxxxxxxxxxxxxxxxxxxxxxxxxxxxxxxxxxxxxxxxxx ZONE UB xx".toList)

set_option maxRecDepth 4000 in
/-- C8 counterexample: on a document whose discovery yields exactly UA and
UB, the target code ug normalizes to UG as claimed, but the excerpts built
for UG are not empty in every article slot: the zone-boundary search falls
back to position 0 when UG is absent, so the article 6 heading of the
document still yields a non-empty article-6 excerpt. -/
theorem C8_counterexample :
    normalizeZoneCode (some ("ug".toList)) = some ("UG".toList) ∧
    discoverZonesRegex c8Text = [("UA".toList), ("UB".toList)] ∧
    (buildZoneExcerpts c8Text ("UG".toList)).extrait_article_6 ≠ [] := by
  decide

/-- The entry pushed for a zone always carries that zone's code, whether
the extraction call succeeded or failed. -/
theorem processOneZone_code (oracle : ZoneOracle) (fullText : Str)
    (zi : ZoneInfo) :
    (processOneZone oracle fullText zi).1.zone_code = zi.zone_code := by
  rcases ho : oracle zi.zone_code zi.zone_libelle
      (buildZoneExcerpts fullText zi.zone_code) with e | raw
  · simp only [processOneZone, ho]
  · simp only [processOneZone, ho]
    rcases hp : postProcessZoneRuleset raw zi.zone_code zi.zone_libelle
      with e | rs
    · simp only [hp]
    · simp only [hp]

set_option maxHeartbeats 2000000 in
/-- C8: in target-zone mode, when the normalized target T is absent from
the (regex-) discovered zones, the endpoint records the warning
TARGET_ZONE_NOT_IN_DISCOVERY: T, still starts exactly one extraction call
for the bare candidate — code T, no libelle, with the excerpts built for T
from the document — and returns a single ruleset entry for T. -/
theorem C8_target_not_in_discovery (fullText : Str)
    (rawTarget cI cN sU : Option Str) (T : Str)
    (discOracle : Except Unit Discovery) (zoneOracle : ZoneOracle)
    (hLen : ¬ (fullText = [] ∨ fullText.length < 100))
    (hT : normalizeZoneCode rawTarget = some T)
    (hRegex : discoverZonesRegex fullText ≠ [])
    (hMiss : ∀ c ∈ discoverZonesRegex fullText,
      ¬ normalizeZoneCode (some c) = some T) :
    ∃ m e,
      (pluParse fullText rawTarget cI cN sU discOracle zoneOracle).1.meta =
        some m ∧
      m.target_zone_mode = true ∧
      m.target_zone_code = some T ∧
      m.target_zone_found_in_discovery = false ∧
      (("TARGET_ZONE_NOT_IN_DISCOVERY: ".toList) ++ T) ∈ m.warnings ∧
      (pluParse fullText rawTarget cI cN sU
          discOracle zoneOracle).1.zones_rulesets = some [e] ∧
      e.zone_code = T ∧
      (pluParse fullText rawTarget cI cN sU discOracle zoneOracle).2 =
        [Effect.llmZone T none (buildZoneExcerpts fullText T)] := by
  have hfind : (((discoverZonesRegex fullText).map
      (fun code => (⟨code, none⟩ : ZoneInfo))).find?
        (fun z => normalizeZoneCode (some z.zone_code) = some T)) = none := by
    rw [List.find?_eq_none]
    intro z hz
    rw [List.mem_map] at hz
    obtain ⟨c, hc, rfl⟩ := hz
    simpa using hMiss c hc
  simp only [pluParse, hT, if_neg hLen, if_pos hRegex, Option.isSome_some,
    dite_true, Option.get_some, hfind, processZones_eq, List.map_cons,
    List.map_nil, List.filterMap_cons, List.filter_cons]
  refine ⟨_, _, rfl, rfl, rfl, rfl, ?_, rfl, processOneZone_code _ _ _, rfl⟩
  rw [List.nil_append]
  exact List.mem_append_left _ (List.mem_cons_self _ _)

set_option maxRecDepth 4000 in
theorem C8_target_not_in_discovery_witness :
    (¬ (c8Text = [] ∨ c8Text.length < 100)) ∧
    normalizeZoneCode (some ("ug".toList)) = some ("UG".toList) ∧
    (∃ m e,
      (pluParse c8Text (some ("ug".toList)) (some ("1".toList)) none
          (some ("u".toList)) (.error ())
          (fun _ _ _ => .ok JSRaw.jsNull)).1.meta = some m ∧
      m.target_zone_mode = true ∧
      m.target_zone_code = some ("UG".toList) ∧
      m.target_zone_found_in_discovery = false ∧
      (("TARGET_ZONE_NOT_IN_DISCOVERY: ".toList) ++ ("UG".toList)) ∈
        m.warnings ∧
      (pluParse c8Text (some ("ug".toList)) (some ("1".toList)) none
          (some ("u".toList)) (.error ())
          (fun _ _ _ => .ok JSRaw.jsNull)).1.zones_rulesets = some [e] ∧
      e.zone_code = ("UG".toList) ∧
      (pluParse c8Text (some ("ug".toList)) (some ("1".toList)) none
          (some ("u".toList)) (.error ())
          (fun _ _ _ => .ok JSRaw.jsNull)).2 =
        [Effect.llmZone ("UG".toList) none
          (buildZoneExcerpts c8Text ("UG".toList))]) := by
  refine ⟨by decide, by decide, ?_⟩
  exact C8_target_not_in_discovery c8Text (some ("ug".toList))
    (some ("1".toList)) none (some ("u".toList)) ("UG".toList) (.error ())
    (fun _ _ _ => .ok JSRaw.jsNull) (by decide) (by decide) (by decide)
    (by
      intro c hc
      have hd : discoverZonesRegex c8Text =
          [("UA".toList), ("UB".toList)] := by decide
      rw [hd] at hc
      simp only [List.mem_cons, List.mem_singleton] at hc
      rcases hc with rfl | rfl | hc
      · decide
      · decide
      · exact absurd hc (List.not_mem_nil c))

/-! ### C5: surface-unit exclusion and meter extraction on numerals

The claim quantifies over every number N; numbers are modelled by their
decimal numerals: a nonempty integer digit block and an optional fractional
part with its separator (comma or dot), the shapes the source's number
group `\d+(?:[.,]\d+)?` captures. -/

/-- A decimal digit character. -/
def digitChar (d : Fin 10) : Char := Char.ofNat (48 + d.val)

/-- A decimal numeral: leading integer digit, further integer digits, and
an optional fractional part (separator choice: true = comma, false = dot;
first fractional digit; further fractional digits). -/
structure NumLit where
  d0 : Fin 10
  ds : List (Fin 10)
  frac : Option (Bool × Fin 10 × List (Fin 10))

def sepChar (b : Bool) : Char := if b then ',' else '.'

def intDigits (n : NumLit) : Str := (n.d0 :: n.ds).map digitChar

/-- The digit characters of the fractional part (without the separator). -/
def fracDigitChars : Option (Bool × Fin 10 × List (Fin 10)) → Str
  | none => []
  | some (_, f0, fs) => (f0 :: fs).map digitChar

/-- The rendered fractional part, separator included. -/
def fracRender : Option (Bool × Fin 10 × List (Fin 10)) → Str
  | none => []
  | some (b, f0, fs) => sepChar b :: (f0 :: fs).map digitChar

/-- The numeral as text. -/
def render (n : NumLit) : Str := intDigits n ++ fracRender n.frac

/-- The exact rational value of the numeral. -/
def valueOf (n : NumLit) : ℚ :=
  (digitsToNat (intDigits n) : ℚ) + fracValQ (fracDigitChars n.frac)

theorem digitChar_digit : ∀ d : Fin 10, isDigitC (digitChar d) = true := by
  decide

theorem digitChar_lower : ∀ d : Fin 10,
    jsToLowerChar (digitChar d) = digitChar d := by decide

theorem digitChar_ne : ∀ d : Fin 10, digitChar d ≠ ',' ∧ digitChar d ≠ '.' ∧
    digitChar d ≠ 't' ∧ digitChar d ≠ 'm' ∧ digitChar d ≠ '-' ∧
    digitChar d ≠ '+' := by decide

theorem digitChar_not_ws : ∀ d : Fin 10, isJsWs (digitChar d) = false := by
  decide

theorem sepChar_not_digit (b : Bool) : isDigitC (sepChar b) = false := by
  cases b <;> decide

theorem sepChar_ne (b : Bool) : sepChar b ≠ 't' ∧ sepChar b ≠ 'm' := by
  cases b <;> exact ⟨by decide, by decide⟩

theorem sepChar_not_ws (b : Bool) : isJsWs (sepChar b) = false := by
  cases b <;> decide

theorem sepChar_lower (b : Bool) : jsToLowerChar (sepChar b) = sepChar b := by
  cases b <;> decide

theorem sepChar_or (b : Bool) : sepChar b = '.' ∨ sepChar b = ',' := by
  cases b
  · exact Or.inl (by decide)
  · exact Or.inr (by decide)

/-- Characters of a rendered numeral are digits or a separator. -/
theorem render_chars (n : NumLit) :
    ∀ c ∈ render n, isDigitC c = true ∨ c = '.' ∨ c = ',' := by
  intro c hc
  rw [render, List.mem_append] at hc
  rcases hc with hc | hc
  · rw [intDigits, List.mem_map] at hc
    obtain ⟨d, _, rfl⟩ := hc
    exact Or.inl (digitChar_digit d)
  · rcases hf : n.frac with _ | ⟨b, f0, fs⟩ <;> rw [hf] at hc
    · simp [fracRender] at hc
    · rw [fracRender] at hc
      rcases List.mem_cons.mp hc with rfl | hc
      · rcases sepChar_or b with h | h <;> rw [h]
        · exact Or.inr (Or.inl rfl)
        · exact Or.inr (Or.inr rfl)
      · rw [List.mem_map] at hc
        obtain ⟨d, _, rfl⟩ := hc
        exact Or.inl (digitChar_digit d)

theorem render_no_t (n : NumLit) : 't' ∉ render n := by
  intro h
  rcases render_chars n 't' h with hd | h | h
  · have h1 := isDigitC_toNat hd
    have h2 : ('t' : Char).toNat = 116 := rfl
    omega
  · exact absurd h (by decide)
  · exact absurd h (by decide)

theorem render_no_m (n : NumLit) : 'm' ∉ render n := by
  intro h
  rcases render_chars n 'm' h with hd | h | h
  · have h1 := isDigitC_toNat hd
    have h2 : ('m' : Char).toNat = 109 := rfl
    omega
  · exact absurd h (by decide)
  · exact absurd h (by decide)

theorem render_lower (n : NumLit) : jsToLower (render n) = render n := by
  rw [jsToLower]
  rw [show render n = List.map id (render n) from (List.map_id _).symm]
  rw [List.map_map]
  refine List.map_congr_left ?_
  intro c hc
  simp only [Function.comp, id]
  rcases render_chars n c (by simpa using hc) with hd | rfl | rfl
  · obtain ⟨h1, h2⟩ := isDigitC_toNat hd
    simp only [jsToLowerChar]
    rw [if_neg, if_neg]
    · rintro ⟨ha, hb, hc'⟩
      omega
    · rintro ⟨ha, hb⟩
      have ha' : ('A' : Char).toNat ≤ c.toNat := ha
      have h65 : ('A' : Char).toNat = 65 := rfl
      omega
  · decide
  · decide

/-- Greedy digit munch runs through a rendered digit block. -/
theorem takeWhile_digits (dl : List (Fin 10)) (rest : Str) :
    (dl.map digitChar ++ rest).takeWhile isDigitC =
      dl.map digitChar ++ rest.takeWhile isDigitC := by
  induction dl with
  | nil => rfl
  | cons d dl ih =>
    simp only [List.map_cons, List.cons_append, List.takeWhile_cons,
      digitChar_digit d, if_true, ih]

theorem dropWhile_digits (dl : List (Fin 10)) (rest : Str) :
    (dl.map digitChar ++ rest).dropWhile isDigitC =
      rest.dropWhile isDigitC := by
  induction dl with
  | nil => rfl
  | cons d dl ih =>
    simp only [List.map_cons, List.cons_append, List.dropWhile_cons,
      digitChar_digit d, if_true, ih]

/-- The number group consumes exactly the rendered numeral when the next
character is a space or the letter m. -/
theorem numTokenLen_render (n : NumLit) (T : Str)
    (hT : T.head? = some ' ' ∨ T.head? = some 'm') :
    numTokenLen (render n ++ T) = some (render n).length := by
  obtain ⟨c, T', rfl, hnd, hnp, hnc⟩ :
      ∃ c T', T = c :: T' ∧ isDigitC c = false ∧ c ≠ '.' ∧ c ≠ ',' := by
    rcases hT with h | h
    · cases T with
      | nil => exact absurd h (by simp)
      | cons a b =>
        simp only [List.head?_cons, Option.some.injEq] at h
        subst h
        exact ⟨' ', b, rfl, by decide, by decide, by decide⟩
    · cases T with
      | nil => exact absurd h (by simp)
      | cons a b =>
        simp only [List.head?_cons, Option.some.injEq] at h
        subst h
        exact ⟨'m', b, rfl, by decide, by decide, by decide⟩
  rcases hf : n.frac with _ | ⟨sb, f0, fs⟩
  · have hR : render n = (n.d0 :: n.ds).map digitChar := by
      simp [render, hf, fracRender, intDigits]
    rw [hR]
    simp only [numTokenLen, takeWhile_digits, List.takeWhile_cons, hnd,
      Bool.false_eq_true, if_false, List.append_nil]
    rw [if_neg (by simp), List.drop_left]
    simp only [hnp, hnc, or_self, if_false]
  · have hR : render n = (n.d0 :: n.ds).map digitChar ++
        (sepChar sb :: (f0 :: fs).map digitChar) := by
      simp [render, hf, fracRender, intDigits]
    rw [hR]
    rw [List.append_assoc, List.cons_append]
    simp only [numTokenLen, takeWhile_digits, List.takeWhile_cons,
      sepChar_not_digit, Bool.false_eq_true, if_false, List.append_nil]
    rw [if_neg (by simp), List.drop_left]
    dsimp only
    rw [if_pos (sepChar_or sb)]
    simp only [takeWhile_digits, List.takeWhile_cons, hnd,
      Bool.false_eq_true, if_false, List.append_nil]
    rw [if_neg (by simp)]
    simp [List.length_append]
    omega

theorem numTok_render (n : NumLit) (T : Str)
    (hT : T.head? = some ' ' ∨ T.head? = some 'm') :
    numTok (render n ++ T) = some T := by
  rw [numTok, numTokenLen_render n T hT, Option.map_some']
  rw [List.drop_left]

/-- A successful bare-meter match pins down an m-headed suffix whose
surface lookahead fails. -/
theorem mBareM_shape {s : Str} {k : Nat} (h : mBareM s = some k) :
    ∃ r2, ('m' :: r2) <:+ s ∧ surfDigitAhead r2 = false := by
  unfold mBareM at h
  cases hn : numTok s with
  | none => rw [hn] at h; cases h
  | some r1 =>
    rw [hn] at h
    dsimp only at h
    have hr1 : r1 <:+ s := by
      unfold numTok at hn
      cases hl : numTokenLen s with
      | none => rw [hl] at hn; cases hn
      | some len =>
        rw [hl, Option.map_some', Option.some.injEq] at hn
        rw [← hn]
        exact List.drop_suffix len s
    split at h
    · rename_i r2 heq
      by_cases hd : surfDigitAhead r2
      · rw [if_pos hd] at h; cases h
      · refine ⟨r2, ?_, by simpa using hd⟩
        rw [← heq]
        exact (List.dropWhile_suffix _).trans hr1
    · cases h

theorem numTok_suffix {s r1 : Str} (h : numTok s = some r1) : r1 <:+ s := by
  unfold numTok at h
  cases hl : numTokenLen s with
  | none => rw [hl] at h; cases h
  | some len =>
    rw [hl, Option.map_some', Option.some.injEq] at h
    rw [← h]
    exact List.drop_suffix len s

/-- A successful treSuffix pins the literal tre at the front. -/
theorem treSuffix_shape {total k : Nat} {s : Str}
    (h : treSuffix total s = some k) : ∃ r, s = 't' :: 'r' :: 'e' :: r := by
  unfold treSuffix at h
  split at h
  · rename_i r
    exact ⟨r, rfl⟩
  · cases h

/-- A successful first-pattern match requires a letter t in the input. -/
theorem mMetres_t {s : Str} {k : Nat} (h : mMetres s = some k) : 't' ∈ s := by
  unfold mMetres at h
  cases hn : numTok s with
  | none => rw [hn] at h; cases h
  | some r1 =>
    rw [hn] at h
    dsimp only at h
    have hr1 : r1 <:+ s := numTok_suffix hn
    split at h
    · rename_i r2 heq
      have hm : ('m' :: r2) <:+ s := by
        rw [← heq]
        exact (List.dropWhile_suffix _).trans hr1
      split at h
      · obtain ⟨r, rfl⟩ := treSuffix_shape h
        refine hm.subset ?_
        simp
      · obtain ⟨r, rfl⟩ := treSuffix_shape h
        refine hm.subset ?_
        simp
      · obtain ⟨r, hr⟩ := treSuffix_shape h
        refine hm.subset ?_
        rw [hr]
        simp
    · cases h

/-- Scanning finds nothing when no suffix position matches. -/
theorem findFirstLen_none_suffix (m : Str → Option Nat) :
    ∀ s : Str, (∀ s', s' <:+ s → m s' = none) → findFirstLen m s = none := by
  intro s
  induction s with
  | nil =>
    intro h
    simp [findFirstLen, h [] List.nil_suffix]
  | cons c rest ih =>
    intro h
    simp only [findFirstLen]
    rw [h (c :: rest) (List.suffix_refl _)]
    rw [ih (fun s' hs' => h s' (hs'.trans (List.suffix_cons c rest)))]
    rfl

theorem findFirstLen_mMetres_none {s : Str} (h : 't' ∉ s) :
    findFirstLen mMetres s = none :=
  findFirstLen_none_suffix mMetres s (fun s' hs' => by
    by_contra hne
    obtain ⟨k, hk⟩ := Option.ne_none_iff_exists'.mp hne
    exact h (hs'.subset (mMetres_t hk)))

/-- Decomposition of a suffix of an append. -/
theorem suffix_append_cases {l a b : Str} (h : l <:+ a ++ b) :
    l <:+ b ∨ ∃ a', a' <:+ a ∧ a' ≠ [] ∧ l = a' ++ b := by
  induction a with
  | nil => exact Or.inl h
  | cons c a ih =>
    rw [List.cons_append, List.suffix_cons_iff] at h
    rcases h with rfl | h
    · exact Or.inr ⟨c :: a, List.suffix_refl _, by simp, rfl⟩
    · rcases ih h with h | ⟨a', ha', hne, rfl⟩
      · exact Or.inl h
      · exact Or.inr ⟨a', ha'.trans (List.suffix_cons c a), hne, rfl⟩

/-- Bounded check that every m-headed suffix of T has a surface marker
ahead (the lookahead that defeats the bare-meter pattern). -/
def mLookChk (T : Str) : Bool :=
  (List.range T.length).all fun k =>
    match T.drop k with
    | 'm' :: r2 => surfDigitAhead r2
    | _ => true

theorem mLook_of_chk {T : Str} (h : mLookChk T = true) :
    ∀ r2, ('m' :: r2) <:+ T → surfDigitAhead r2 = true := by
  intro r2 hsuf
  obtain ⟨u, hu⟩ := hsuf
  have hk : u.length < T.length := by
    have hlen := congrArg List.length hu
    simp only [List.length_append, List.length_cons] at hlen
    omega
  have hdrop : T.drop u.length = 'm' :: r2 := by
    rw [← hu]
    exact List.drop_left u _
  rw [mLookChk, List.all_eq_true] at h
  have h2 := h u.length (List.mem_range.mpr hk)
  rw [hdrop] at h2
  split at h2
  · rename_i r2' heq
    cases heq
    exact h2
  · rename_i hno
    exact absurd rfl (hno r2)

/-- In a numeral followed by a surface-marked tail, no position admits a
bare-meter match: the only m of the text has the surface lookahead firing. -/
theorem mBareM_none_neg (n : NumLit) (T : Str)
    (hTm : ∀ r2, ('m' :: r2) <:+ T → surfDigitAhead r2 = true)
    (s : Str) (hs : s <:+ render n ++ T) : mBareM s = none := by
  by_contra hne
  obtain ⟨k, hk⟩ := Option.ne_none_iff_exists'.mp hne
  obtain ⟨r2, hsuf, hfalse⟩ := mBareM_shape hk
  have hsuf2 : ('m' :: r2) <:+ render n ++ T := hsuf.trans hs
  rcases suffix_append_cases hsuf2 with h | ⟨a', ha', hne', heq⟩
  · rw [hTm r2 h] at hfalse
    cases hfalse
  · have : 'm' ∈ render n := by
      cases a' with
      | nil => exact absurd rfl hne'
      | cons x a'' =>
        rw [List.cons_append] at heq
        have hx : x = 'm' := by
          have := heq
          injection this with h1 h2
          exact h1.symm
        exact ha'.subset (hx ▸ List.mem_cons_self x a'')
    exact render_no_m n this

/-- The bare-meter pattern matches the whole numeral-plus-unit text when
the tail is exactly the unit m (with or without a leading space). -/
theorem mBareM_pos (n : NumLit) (T : Str)
    (hT : T.head? = some ' ' ∨ T.head? = some 'm')
    (hws : wsStar T = ['m']) :
    mBareM (render n ++ T) = some ((render n ++ T).length) := by
  unfold mBareM
  rw [numTok_render n T hT]
  dsimp only
  rw [hws]
  split
  · rename_i r2 heq
    cases heq
    rw [if_neg (by decide)]
    rfl
  · rename_i hno
    exact absurd rfl (hno [])

theorem firstNumToken_render (n : NumLit) (T : Str)
    (hT : T.head? = some ' ' ∨ T.head? = some 'm') :
    firstNumToken (render n ++ T) = some (render n) := by
  have h0 := numTokenLen_render n T hT
  have hc : render n ++ T =
      digitChar n.d0 :: (n.ds.map digitChar ++ fracRender n.frac ++ T) := by
    simp [render, intDigits]
  rw [firstNumToken, hc]
  rw [hc] at h0
  simp only [findFirstLen, h0]
  rw [← hc, List.drop_zero, List.take_left]

theorem replaceFirst_comma_no (s : Str) (h : ',' ∉ s) :
    replaceFirstStr [','] ['.'] s = s := by
  induction s with
  | nil => rfl
  | cons c r ih =>
    simp only [replaceFirstStr]
    rw [if_neg, ih (fun hm => h (List.mem_cons_of_mem c hm))]
    intro hp
    simp only [List.isPrefixOf, Bool.and_eq_true, beq_iff_eq] at hp
    exact h (hp.1 ▸ List.mem_cons_self c r)

theorem replaceFirst_comma_render (dl : List (Fin 10)) (rest : Str) :
    replaceFirstStr [','] ['.'] (dl.map digitChar ++ ',' :: rest) =
      dl.map digitChar ++ '.' :: rest := by
  induction dl with
  | nil =>
    simp only [List.map_nil, List.nil_append, replaceFirstStr]
    rw [if_pos]
    · rfl
    · simp [List.isPrefixOf]
  | cons d dl ih =>
    simp only [List.map_cons, List.cons_append, replaceFirstStr]
    rw [if_neg]
    · exact congrArg (List.cons (digitChar d)) ih
    · intro hp
      simp only [List.isPrefixOf, Bool.and_eq_true, beq_iff_eq] at hp
      exact (digitChar_ne d).1 hp.1.symm

/-- The cleaned numeral fed to parseFloat: comma replaced by a dot. -/
def renderDot (n : NumLit) : Str :=
  intDigits n ++
    (match n.frac with
     | none => []
     | some (_, f0, fs) => '.' :: (f0 :: fs).map digitChar)

theorem renderDot_chars (n : NumLit) :
    ∀ c ∈ renderDot n, isDigitC c = true ∨ c = '.' := by
  intro c hc
  rw [renderDot, List.mem_append] at hc
  rcases hc with hc | hc
  · rw [intDigits, List.mem_map] at hc
    obtain ⟨d, _, rfl⟩ := hc
    exact Or.inl (digitChar_digit d)
  · rcases hf : n.frac with _ | ⟨b, f0, fs⟩ <;> rw [hf] at hc
    · simp at hc
    · rcases List.mem_cons.mp hc with rfl | hc
      · exact Or.inr rfl
      · rw [List.mem_map] at hc
        obtain ⟨d, _, rfl⟩ := hc
        exact Or.inl (digitChar_digit d)

theorem replaceFirst_render (n : NumLit) :
    replaceFirstStr [','] ['.'] (render n) = renderDot n := by
  rcases hf : n.frac with _ | ⟨b, f0, fs⟩
  · rw [render, renderDot, hf]
    simp only [fracRender, List.append_nil]
    refine replaceFirst_comma_no _ (fun hm => ?_)
    rw [intDigits, List.mem_map] at hm
    obtain ⟨d, _, he⟩ := hm
    exact (digitChar_ne d).1 he
  · rw [render, renderDot, hf]
    simp only [fracRender]
    cases b
    · refine replaceFirst_comma_no _ (fun hm => ?_)
      rw [List.mem_append] at hm
      rcases hm with hm | hm
      · rw [intDigits, List.mem_map] at hm
        obtain ⟨d, _, he⟩ := hm
        exact (digitChar_ne d).1 he
      · rcases List.mem_cons.mp hm with he | hm
        · exact absurd he.symm (by decide)
        · rw [List.mem_map] at hm
          obtain ⟨d, _, he⟩ := hm
          exact (digitChar_ne d).1 he
    · exact replaceFirst_comma_render (n.d0 :: n.ds) _

theorem filter_renderDot (n : NumLit) :
    (renderDot n).filter (fun c => !isJsWs c) = renderDot n := by
  rw [List.filter_eq_self]
  intro c hc
  rcases renderDot_chars n c hc with hd | rfl
  · rw [not_ws_of_digit hd]
    rfl
  · decide

theorem takeWhile_digits_all (dl : List (Fin 10)) :
    (dl.map digitChar).takeWhile isDigitC = dl.map digitChar := by
  have h := takeWhile_digits dl []
  simpa using h

theorem dropWhile_digits_all (dl : List (Fin 10)) :
    (dl.map digitChar).dropWhile isDigitC = [] := by
  have h := dropWhile_digits dl []
  simpa using h

theorem jsParseFloat_renderDot (n : NumLit) :
    jsParseFloat (renderDot n) = some (valueOf n) := by
  have hm1 : (digitChar n.d0 = '-') = False :=
    eq_false (digitChar_ne n.d0).2.2.2.2.1
  have hm2 : (digitChar n.d0 = '+') = False :=
    eq_false (digitChar_ne n.d0).2.2.2.2.2
  have hdot : isDigitC '.' = false := rfl
  rcases hf : n.frac with _ | ⟨b, f0, fs⟩
  · have hR : renderDot n = digitChar n.d0 :: n.ds.map digitChar := by
      simp [renderDot, hf, intDigits]
    rw [hR]
    simp only [jsParseFloat, List.dropWhile_cons, digitChar_not_ws,
      digitChar_digit, Bool.false_eq_true, if_false, if_true,
      List.head?_cons, Option.some.injEq, hm1, hm2, or_self, ite_false,
      List.takeWhile_cons, takeWhile_digits_all, dropWhile_digits_all,
      List.head?_nil, List.tail_cons, false_and, and_false, reduceCtorEq,
      or_self]
    rw [zpow_zero, mul_one, one_mul, valueOf, hf]
    simp only [fracDigitChars, intDigits, List.map_cons]
  · have hR : renderDot n = digitChar n.d0 ::
        (n.ds.map digitChar ++ '.' :: (f0 :: fs).map digitChar) := by
      simp [renderDot, hf, intDigits]
    rw [hR]
    simp only [jsParseFloat, List.dropWhile_cons, digitChar_not_ws,
      digitChar_digit, Bool.false_eq_true, if_false, if_true,
      List.head?_cons, Option.some.injEq, hm1, hm2, or_self, ite_false,
      List.takeWhile_cons, takeWhile_digits, dropWhile_digits, hdot,
      takeWhile_digits_all, dropWhile_digits_all, List.head?_nil,
      List.tail_cons, List.append_nil, List.map_cons, false_and, and_false,
      reduceCtorEq, or_self]
    rw [zpow_zero, mul_one, one_mul, valueOf, hf]
    simp only [fracDigitChars, intDigits, List.map_cons]

/-- parseFrenchDecimal reads back the exact value of a rendered numeral. -/
theorem parseFrenchDecimal_render (n : NumLit) :
    parseFrenchDecimal (some (render n)) = some (valueOf n) := by
  have hne : render n ≠ [] := by
    rw [render, intDigits]
    simp
  rw [parseFrenchDecimal]
  rw [if_neg hne]
  rw [replaceFirst_render, filter_renderDot, jsParseFloat_renderDot]

theorem extractMetersValue_render (n : NumLit) (T : Str) :
    extractMetersValue (some (render n ++ T)) =
      runNumExtract [mMetres, mBareM] (render n ++ T) := by
  have hc : render n ++ T =
      digitChar n.d0 :: (n.ds.map digitChar ++ fracRender n.frac ++ T) := by
    simp [render, intDigits]
  rw [hc]
  rfl

theorem lower_text_render (n : NumLit) (T : Str) (hlow : jsToLower T = T) :
    jsToLower (render n ++ T) = render n ++ T := by
  rw [jsToLower, List.map_append]
  rw [show List.map jsToLowerChar (render n) = jsToLower (render n) from rfl]
  rw [show List.map jsToLowerChar T = jsToLower T from rfl]
  rw [render_lower, hlow]

theorem no_t_text (n : NumLit) (T : Str) (hTt : 't' ∉ T) :
    't' ∉ render n ++ T := by
  rw [List.mem_append]
  rintro (h | h)
  · exact render_no_t n h
  · exact hTt h

theorem runNumExtract_neg (n : NumLit) (T : Str)
    (hlow : jsToLower T = T) (hTt : 't' ∉ T)
    (hchk : mLookChk T = true) :
    runNumExtract [mMetres, mBareM] (render n ++ T) = none := by
  have hA : findFirstLen mMetres (render n ++ T) = none :=
    findFirstLen_mMetres_none (no_t_text n T hTt)
  have hB : findFirstLen mBareM (render n ++ T) = none :=
    findFirstLen_none_suffix _ _ (fun s' hs' =>
      mBareM_none_neg n T (mLook_of_chk hchk) s' hs')
  simp only [runNumExtract, lower_text_render n T hlow, hA, hB]

theorem runNumExtract_pos (n : NumLit) (T : Str)
    (hlow : jsToLower T = T) (hTt : 't' ∉ T)
    (hT : T.head? = some ' ' ∨ T.head? = some 'm')
    (hws : wsStar T = ['m']) :
    runNumExtract [mMetres, mBareM] (render n ++ T) = some (valueOf n) := by
  have hA : findFirstLen mMetres (render n ++ T) = none :=
    findFirstLen_mMetres_none (no_t_text n T hTt)
  have hM := mBareM_pos n T hT hws
  have hc : render n ++ T =
      digitChar n.d0 :: (n.ds.map digitChar ++ fracRender n.frac ++ T) := by
    simp [render, intDigits]
  have hFF : findFirstLen mBareM (render n ++ T) =
      some (0, (render n ++ T).length) := by
    rw [hc] at hM ⊢
    simp only [findFirstLen, hM]
  simp only [runNumExtract, lower_text_render n T hlow, hA, hFF,
    List.drop_zero, List.take_length, firstNumToken_render n T hT]
  exact parseFrenchDecimal_render n

/-- C5: surface-unit exclusion.  For every decimal numeral N, the
linear-meter extractor returns null on the texts N m², N m2 and N m ²
(the negative lookahead rejects the surface marker at every candidate
position), and returns exactly the value of N on the texts N m and Nm. -/
theorem C5_surface_unit_exclusion (n : NumLit) :
    (extractMetersValue (some (render n ++ (" m²".toList))) = none ∧
     extractMetersValue (some (render n ++ (" m2".toList))) = none ∧
     extractMetersValue (some (render n ++ (" m ²".toList))) = none) ∧
    extractMetersValue (some (render n ++ (" m".toList))) =
      some (valueOf n) ∧
    extractMetersValue (some (render n ++ ("m".toList))) =
      some (valueOf n) := by
  refine ⟨⟨?_, ?_, ?_⟩, ?_, ?_⟩
  · rw [extractMetersValue_render]
    exact runNumExtract_neg n _ (by decide) (by decide) (by decide)
  · rw [extractMetersValue_render]
    exact runNumExtract_neg n _ (by decide) (by decide) (by decide)
  · rw [extractMetersValue_render]
    exact runNumExtract_neg n _ (by decide) (by decide) (by decide)
  · rw [extractMetersValue_render]
    exact runNumExtract_pos n _ (by decide) (by decide) (by decide)
      (by decide)
  · rw [extractMetersValue_render]
    exact runNumExtract_pos n _ (by decide) (by decide) (by decide)
      (by decide)
